import Mathlib

/-!
Verification of the incident-migrator mapping/resolution engine and upsert
pipeline.

The development shallowly embeds the TypeScript sources:

* `src/mapping/mappers.ts` — the entity resolvers (`mapSeverity`, `mapStatus`,
  `mapIncidentType`, `mapUser`, `mapTimestampsWithContext`,
  `mapRoleAssignments`, `mapCustomFieldValues` / `mapSelectFieldValue`);
* `src/import/importer.ts` — the upsert decision engine
  (`Importer.importIncident`, `Importer.createIncident`,
  `Importer.updateIncident`) and the worker accumulator in `Importer.import`;
* `buildMappingContext` — the catalog-entry index construction.

TypeScript `Map<string, T>` values are embedded as ordered association lists
(`List (String × T)`), since the code relies on insertion-order iteration
(first match wins).  JavaScript string operations (`toLowerCase`, `trim`,
`includes`) are embedded with the corresponding Lean `String` operations, and
`Array.prototype.sort` (stable per ES2019) with a stable insertion sort.
Numeric ranks are embedded as `Int`.  Code that can throw (the
`[].reduce`-with-no-seed in `mapSeverity`, strict-mode aborts, remote-call
failures) is embedded in `Except String`.  The remote system is embedded as an
explicit deterministic environment (`RemoteEnv`) that records issued create
and update calls; a create call fails exactly when the requested external
numeric id is already present, mirroring the only failure the
conflict-recovery branch of the engine distinguishes.
-/

namespace IncidentMigrator

/-- Does the needle match the haystack position by position from the head?
Written structurally so that concrete instances reduce in the kernel. -/
def headMatches : List Char → List Char → Bool
  | [], _ => true
  | _, [] => false
  | a :: as, b :: bs => a == b && headMatches as bs

/-- Character-list version of substring containment. -/
def charsContain (haystack needle : List Char) : Bool :=
  match haystack with
  | [] => needle.isEmpty
  | _ :: t => headMatches needle haystack || charsContain t needle

/-- JavaScript `haystack.includes(needle)`. -/
def strContains (haystack needle : String) : Bool :=
  charsContain haystack.data needle.data

/-- JavaScript `s.toLowerCase()`, character by character. -/
def jsLower (s : String) : String := String.mk (s.data.map Char.toLower)

/-- JavaScript `s.trim()`: whitespace stripped from both ends. -/
def jsTrim (s : String) : String :=
  String.mk (((s.data.dropWhile Char.isWhitespace).reverse.dropWhile
    Char.isWhitespace).reverse)

/-- The numeric value of a digit string (`parseInt` on a digits-only match). -/
def digitsVal (ds : List Char) : Nat :=
  ds.foldl (fun n c => n * 10 + (c.toNat - 48)) 0

/-- Ordered association-list lookup (`Map.prototype.get` / record indexing). -/
def lookupA {α : Type} (l : List (String × α)) (k : String) : Option α :=
  (l.find? (fun p => p.1 == k)).map Prod.snd

/-- Association-list insertion (`map.set(k, v)` / `obj[k] = v`): the new
binding shadows any previous one. -/
def insertA {α : Type} (l : List (String × α)) (k : String) (v : α) :
    List (String × α) :=
  (k, v) :: l

/-! ## Data model (from `src/types.ts`) -/

/-- `Severity` (target configuration entity). -/
structure Severity where
  id : String
  name : String
  rank : Int
  deriving DecidableEq, Repr

/-- `IncidentStatus` (target configuration entity); the category union type is
embedded as a plain string since the code only compares it for equality. -/
structure IncidentStatus where
  id : String
  name : String
  category : String
  rank : Int
  deriving DecidableEq, Repr

/-- `IncidentType` (target configuration entity). -/
structure IncidentType where
  id : String
  name : String
  private_incidents_only : Bool
  deriving DecidableEq, Repr

/-- `IncidentRole.role_type` union: lead, reporter or custom. -/
inductive RoleType where
  | lead
  | reporter
  | custom
  deriving DecidableEq, Repr

/-- `IncidentRole` (target configuration entity). -/
structure IncidentRole where
  id : String
  name : String
  role_type : RoleType
  deriving DecidableEq, Repr

/-- `User` (target configuration entity). -/
structure User where
  id : String
  email : String
  slack_user_id : Option String
  deriving DecidableEq, Repr

/-- `IncidentTimestamp` (configuration entity). -/
structure IncidentTimestamp where
  id : String
  name : String
  rank : Int
  deriving DecidableEq, Repr

/-- `CatalogEntry` (target catalog entity, with the alias list used by the
catalog-entry index builder). -/
structure CatalogEntry where
  id : String
  name : String
  catalog_type_id : String
  external_id : Option String
  aliases : List String
  deriving DecidableEq, Repr

/-- `CustomFieldOption`. -/
structure CustomFieldOption where
  id : String
  value : String
  deriving DecidableEq, Repr

/-- `CustomField.field_type` union. -/
inductive FieldType where
  | single_select
  | multi_select
  | text
  | link
  | numeric
  deriving DecidableEq, Repr

/-- `CustomField`. -/
structure CustomField where
  id : String
  name : String
  field_type : FieldType
  catalog_type_id : Option String
  options : List CustomFieldOption
  deriving DecidableEq, Repr

/-- Source-side severity reference carried on an incident. -/
structure SourceSeverity where
  id : String
  name : String
  rank : Int
  deriving DecidableEq, Repr

/-- Source-side status reference carried on an incident. -/
structure SourceStatus where
  id : String
  name : String
  category : String
  deriving DecidableEq, Repr

/-- Source-side incident-type reference carried on an incident. -/
structure SourceType where
  id : String
  name : String
  deriving DecidableEq, Repr

/-- Source-side user reference (`assignment.assignee` / `mapUser` input). -/
structure SourceUser where
  id : String
  email : Option String
  slack_user_id : Option String
  deriving DecidableEq, Repr

/-- `MappingResult<T>`: an optional resolved value plus warnings. -/
structure MappingResult (α : Type) where
  value : Option α
  warnings : List String
  deriving DecidableEq, Repr

/-! ## Entity resolvers (from `src/mapping/mappers.ts`) -/

/-- Stable insertion used to embed `Array.prototype.sort` with the comparator
`(a, b) => a.rank - b.rank`: an element is placed before the first element of
strictly greater rank, so equal-rank elements keep their original order. -/
def insertByRank (x : Severity) : List Severity → List Severity
  | [] => [x]
  | y :: ys => if y.rank < x.rank then y :: insertByRank x ys else x :: y :: ys

/-- Stable sort of the target severities by ascending rank
(`Array.from(targetSeverities.values()).sort((a, b) => a.rank - b.rank)`). -/
def sortByRank (l : List Severity) : List Severity :=
  l.foldr insertByRank []

/-- `Math.abs(curr.rank - sourceRank)`. -/
def rankDist (sourceRank : Int) (sev : Severity) : Nat :=
  (sev.rank - sourceRank).natAbs

/-- One step of `sortedByRank.reduce(...)` in `mapSeverity`: keep the previous
candidate unless the current one is strictly closer in rank. -/
def closerStep (sourceRank : Int) (prev curr : Severity) : Severity :=
  if rankDist sourceRank curr < rankDist sourceRank prev then curr else prev

/-- `mapSeverity` from `src/mapping/mappers.ts`: exact case-insensitive name
match first, else fall back to the severity of closest rank.  The fallback is
JavaScript `Array.prototype.reduce` without a seed, which throws a `TypeError`
on an empty array; that exception is embedded as `Except.error`. -/
def mapSeverity (sourceSeverity : Option SourceSeverity)
    (targetSeverities : List (String × Severity)) :
    Except String (MappingResult String) :=
  match sourceSeverity with
  | none => .ok ⟨none, []⟩
  | some s =>
    match targetSeverities.find?
        (fun p => jsLower p.2.name == jsLower s.name) with
    | some p => .ok ⟨some p.1, []⟩
    | none =>
      match sortByRank (targetSeverities.map Prod.snd) with
      | [] => .error "Reduce of empty array with no initial value"
      | h :: t =>
        let closest := t.foldl (closerStep s.rank) h
        .ok ⟨some closest.id,
          ["Severity \"" ++ s.name ++ "\" not found, mapped to \"" ++
            closest.name ++ "\" by rank"]⟩

/-- `mapStatus` from `src/mapping/mappers.ts`: name-and-category match, then
name-only, then same-category, else no value with a warning. -/
def mapStatus (sourceStatus : Option SourceStatus)
    (targetStatuses : List (String × IncidentStatus)) : MappingResult String :=
  match sourceStatus with
  | none => ⟨none, []⟩
  | some s =>
    match targetStatuses.find? (fun p =>
        jsLower p.2.name == jsLower s.name && p.2.category == s.category) with
    | some p => ⟨some p.1, []⟩
    | none =>
      match targetStatuses.find? (fun p =>
          jsLower p.2.name == jsLower s.name) with
      | some p =>
        ⟨some p.1,
          ["Status \"" ++ s.name ++ "\" found but category differs (source: " ++
            s.category ++ ", target: " ++ p.2.category ++ ")"]⟩
      | none =>
        match targetStatuses.find? (fun p => p.2.category == s.category) with
        | some p =>
          ⟨some p.1,
            ["Status \"" ++ s.name ++ "\" not found, mapped to \"" ++
              p.2.name ++ "\" by category"]⟩
        | none =>
          ⟨none,
            ["Status \"" ++ s.name ++ "\" (" ++ s.category ++
              ") could not be mapped"]⟩

/-- `mapIncidentType` from `src/mapping/mappers.ts`. -/
def mapIncidentType (sourceType : Option SourceType)
    (targetTypes : List (String × IncidentType)) : MappingResult String :=
  match sourceType with
  | none => ⟨none, []⟩
  | some s =>
    match targetTypes.find? (fun p => jsLower p.2.name == jsLower s.name) with
    | some p => ⟨some p.1, []⟩
    | none => ⟨none, ["Incident type \"" ++ s.name ++ "\" not found in target"]⟩

/-- `mapUser` from `src/mapping/mappers.ts`: case-insensitive email match,
fallback on the exact Slack user id, else a warning suggesting an invite. -/
def mapUser (sourceUser : Option SourceUser)
    (targetUsers : List (String × User)) : MappingResult String :=
  match sourceUser with
  | none => ⟨none, []⟩
  | some s =>
    let byEmail : Option (String × User) :=
      match s.email with
      | some e => targetUsers.find? (fun p => jsLower p.2.email == jsLower e)
      | none => none
    match byEmail with
    | some p => ⟨some p.1, []⟩
    | none =>
      let bySlack : Option (String × User) :=
        match s.slack_user_id with
        | some sid => targetUsers.find? (fun p => p.2.slack_user_id == some sid)
        | none => none
      match bySlack with
      | some p => ⟨some p.1, ["User mapped by Slack ID (email not matched)"]⟩
      | none =>
        ⟨none,
          ["User " ++ (s.email.getD s.id) ++
            " not found in target (may need to invite them)"]⟩

/-- `IncidentTimestampValue`: a timestamp value on an incident, optionally
carrying its export-supplied definition. -/
structure TimestampValue where
  incident_timestamp_id : String
  incident_timestamp : Option IncidentTimestamp
  value : String
  deriving DecidableEq, Repr

/-- `mapTimestampsWithContext` from `src/mapping/mappers.ts`: each source
value takes its definition from the export data first, then from the optional
source context; values with no definition or no name match are dropped with a
warning. -/
def mapTimestampsWithContext (sourceTimestamps : List TimestampValue)
    (sourceTimestampDefs : List (String × IncidentTimestamp))
    (targetTimestamps : List (String × IncidentTimestamp)) :
    MappingResult (List TimestampValue) :=
  let step : TimestampValue → Sum TimestampValue String := fun sourceTs =>
    match sourceTs.incident_timestamp.or
        (lookupA sourceTimestampDefs sourceTs.incident_timestamp_id) with
    | none =>
      Sum.inr ("Source timestamp " ++ sourceTs.incident_timestamp_id ++
        " definition not found")
    | some sourceDef =>
      match targetTimestamps.find?
          (fun p => jsLower p.2.name == jsLower sourceDef.name) with
      | some p =>
        Sum.inl ({ incident_timestamp_id := p.1, incident_timestamp := none,
                   value := sourceTs.value } : TimestampValue)
      | none =>
        Sum.inr ("Timestamp \"" ++ sourceDef.name ++ "\" not found in target")
  ⟨some (sourceTimestamps.filterMap (fun ts => (step ts).getLeft?)),
    sourceTimestamps.filterMap (fun ts => (step ts).getRight?)⟩

/-- `IncidentRoleAssignment` as read from the export bundle. -/
structure RoleAssignment where
  incident_role_id : String
  role : Option IncidentRole
  assignee : Option SourceUser
  deriving DecidableEq, Repr

/-- A role assignment as emitted into create/update payloads: the target role
id plus, when an assignee was resolved, the target user id. -/
structure OutRoleAssignment where
  incident_role_id : String
  assignee : Option String
  deriving DecidableEq, Repr

/-- `mapRoleAssignments` from `src/mapping/mappers.ts`: the source role
definition comes from the export data or the source context, the target role
is matched by case-insensitive name, and the assignee is re-resolved through
`mapUser`; an assignment whose assignee does not resolve is dropped with the
warnings of the user resolver. -/
def mapRoleAssignments (sourceAssignments : List RoleAssignment)
    (sourceRoles : List (String × IncidentRole))
    (targetRoles : List (String × IncidentRole))
    (targetUsers : List (String × User)) :
    MappingResult (List OutRoleAssignment) :=
  let step : RoleAssignment → Sum OutRoleAssignment (List String) :=
    fun assignment =>
    match assignment.role.or (lookupA sourceRoles assignment.incident_role_id) with
    | none =>
      Sum.inr ["Source role " ++ assignment.incident_role_id ++
        " definition not found"]
    | some sourceRole =>
      match targetRoles.find?
          (fun p => jsLower p.2.name == jsLower sourceRole.name) with
      | none => Sum.inr ["Role \"" ++ sourceRole.name ++ "\" not found in target"]
      | some p =>
        match assignment.assignee with
        | none =>
          Sum.inl ({ incident_role_id := p.1, assignee := none } :
            OutRoleAssignment)
        | some assignee =>
          match mapUser (some assignee) targetUsers with
          | ⟨some uid, _⟩ =>
            Sum.inl ({ incident_role_id := p.1, assignee := some uid } :
              OutRoleAssignment)
          | ⟨none, ws⟩ => Sum.inr ws
  ⟨some (sourceAssignments.filterMap (fun a => (step a).getLeft?)),
    (sourceAssignments.map (fun a => ((step a).getRight?).getD [])).flatten⟩

/-- A select-type value entry as read from the export bundle:
`value_catalog_entry?.name` and `value_option?.value`. -/
structure ValueEntry where
  value_catalog_entry_name : Option String
  value_option_value : Option String
  deriving DecidableEq, Repr

/-- A custom-field value entry as emitted into payloads: a catalog-entry link,
an option link, or a raw (text/link/numeric) source value copied through. -/
inductive OutValue where
  | catalogEntry (id : String)
  | optionLink (id : String)
  | raw (v : ValueEntry)
  deriving DecidableEq, Repr

/-- `CustomFieldValue` as read from the export bundle. -/
structure CustomFieldValue where
  custom_field_id : String
  custom_field : Option CustomField
  values : List ValueEntry
  deriving DecidableEq, Repr

/-- A custom-field entry as emitted into payloads. -/
structure OutCustomFieldValue where
  custom_field_id : String
  values : List OutValue
  deriving DecidableEq, Repr

/-- `mapSelectFieldValue` (the revision taking the target catalog entries):
the name of each entry is `value_catalog_entry?.name || value_option?.value`; a
catalog-backed target field is matched against the catalog entries by
case-insensitive name, an option-backed one against the option labels; misses
are dropped with a warning naming the option and the field. -/
def mapSelectFieldValue (sourceValues : List ValueEntry)
    (sourceField targetField : CustomField)
    (targetCatalogEntries : Option (List CatalogEntry)) :
    MappingResult (List OutValue) :=
  let step : ValueEntry → Sum OutValue String := fun valueEntry =>
    match valueEntry.value_catalog_entry_name.or valueEntry.value_option_value with
    | none =>
      Sum.inr ("Value entry missing name in field \"" ++ sourceField.name ++ "\"")
    | some sourceName =>
      match targetCatalogEntries with
      | some entries =>
        if entries.length ≠ 0 then
          match entries.find? (fun e => jsLower e.name == jsLower sourceName) with
          | some e => Sum.inl (OutValue.catalogEntry e.id)
          | none =>
            Sum.inr ("Catalog entry \"" ++ sourceName ++ "\" in field \"" ++
              sourceField.name ++ "\" not found in target")
        else if targetField.options.length ≠ 0 then
          match targetField.options.find?
              (fun o => jsLower o.value == jsLower sourceName) with
          | some o => Sum.inl (OutValue.optionLink o.id)
          | none =>
            Sum.inr ("Option \"" ++ sourceName ++ "\" in field \"" ++
              sourceField.name ++ "\" not found in target")
        else
          Sum.inr ("Field \"" ++ sourceField.name ++
            "\" has no options or catalog entries in target")
      | none =>
        if targetField.options.length ≠ 0 then
          match targetField.options.find?
              (fun o => jsLower o.value == jsLower sourceName) with
          | some o => Sum.inl (OutValue.optionLink o.id)
          | none =>
            Sum.inr ("Option \"" ++ sourceName ++ "\" in field \"" ++
              sourceField.name ++ "\" not found in target")
        else
          Sum.inr ("Field \"" ++ sourceField.name ++
            "\" has no options or catalog entries in target")
  ⟨some (sourceValues.filterMap (fun v => (step v).getLeft?)),
    sourceValues.filterMap (fun v => (step v).getRight?)⟩

/-- `mapCustomFieldValues` (the revision taking the catalog entries): the
source field definition comes from the export data or the source context, the
target field is matched by trimmed case-insensitive name, select-type values
go through `mapSelectFieldValue` (with the target catalog entries when the
target field is catalog-backed), and other field types are copied through when
non-empty. -/
def mapCustomFieldValues (sourceValues : List CustomFieldValue)
    (sourceFields : List (String × CustomField))
    (targetFields : List (String × CustomField))
    (catalogEntries : List (String × List CatalogEntry)) :
    MappingResult (List OutCustomFieldValue) :=
  let step : CustomFieldValue → List OutCustomFieldValue × List String :=
    fun sourceValue =>
    match sourceValue.custom_field.or
        (lookupA sourceFields sourceValue.custom_field_id) with
    | none =>
      (([] : List OutCustomFieldValue),
        ["Source custom field " ++ sourceValue.custom_field_id ++
          " definition not found"])
    | some sourceField =>
      match (targetFields.map Prod.snd).find?
          (fun f => jsLower (jsTrim f.name) == jsLower (jsTrim sourceField.name)) with
      | none =>
        ([], ["Custom field \"" ++ sourceField.name ++ "\" not found in target"])
      | some targetField =>
        if targetField.field_type == FieldType.single_select ||
            targetField.field_type == FieldType.multi_select then
          let targetCatalogEntries :=
            match targetField.catalog_type_id with
            | some ctid => lookupA catalogEntries ctid
            | none => none
          let mappedValue :=
            mapSelectFieldValue sourceValue.values sourceField targetField
              targetCatalogEntries
          match mappedValue.value with
          | some vs =>
            (if vs.length ≠ 0 then
              [{ custom_field_id := targetField.id, values := vs }]
            else [], mappedValue.warnings)
          | none => ([], mappedValue.warnings)
        else
          (if sourceValue.values.length ≠ 0 then
            [({ custom_field_id := targetField.id,
                values := sourceValue.values.map OutValue.raw } :
              OutCustomFieldValue)]
          else [], [])
  ⟨some ((sourceValues.map (fun v => (step v).1)).flatten),
    (sourceValues.map (fun v => (step v).2)).flatten⟩

/-! ## Catalog-entry index (from `buildMappingContext`) -/

/-- `normalizeKey` from `buildMappingContext`: trim and lowercase. -/
def normalizeKey (s : String) : String := jsLower (jsTrim s)

/-- The lookup keys of one catalog entry: normalized external id (when
present), normalized name, and normalized aliases. -/
def entryKeys (e : CatalogEntry) : List String :=
  (match e.external_id with
   | some x => [normalizeKey x]
   | none => []) ++ [normalizeKey e.name] ++ e.aliases.map normalizeKey

/-- One key insertion into the catalog-entry index, with the deterministic
collision rule from `buildMappingContext`: on a key collision the
lexicographically smaller entry id wins. -/
def indexInsert (idx : List (String × CatalogEntry)) (key : String)
    (e : CatalogEntry) : List (String × CatalogEntry) :=
  match lookupA idx key with
  | some existing => if e.id < existing.id then insertA idx key e else idx
  | none => insertA idx key e

/-- The catalog-entry index of one catalog type, keyed by normalized external
id, name and aliases (from `buildMappingContext`). -/
def buildCatalogIndex (entries : List CatalogEntry) :
    List (String × CatalogEntry) :=
  entries.foldl (fun idx e => (entryKeys e).foldl (fun idx k => indexInsert idx k e) idx) []

/-- Modelled from the spec: the select-value resolver that consumes the
catalog-entry index.  The mappers revision consuming `catalogEntriesByType`
is absent from the sources — only its caller in the importer and the index
builder in `buildMappingContext` are present.  Following the words of the
spec: a
catalog-backed target field resolves each option by normalized
name/alias/external-id lookup in the catalog-entry index; an option-backed
target field resolves by case-insensitive option label; an option resolving
neither way is dropped from the emitted value list with one warning naming
the option and the field. -/
def mapSelectFieldValueIndexed (sourceValues : List ValueEntry)
    (sourceField targetField : CustomField)
    (catalogIndex : Option (List (String × CatalogEntry))) :
    MappingResult (List OutValue) :=
  let step : ValueEntry → Sum OutValue String := fun valueEntry =>
    match valueEntry.value_catalog_entry_name.or valueEntry.value_option_value with
    | none =>
      Sum.inr ("Value entry missing name in field \"" ++ sourceField.name ++ "\"")
    | some sourceName =>
      match catalogIndex with
      | some idx =>
        match lookupA idx (normalizeKey sourceName) with
        | some e => Sum.inl (OutValue.catalogEntry e.id)
        | none =>
          Sum.inr ("Option \"" ++ sourceName ++ "\" in field \"" ++
            sourceField.name ++ "\" not found in target")
      | none =>
        match targetField.options.find?
            (fun o => jsLower o.value == jsLower sourceName) with
        | some o => Sum.inl (OutValue.optionLink o.id)
        | none =>
          Sum.inr ("Option \"" ++ sourceName ++ "\" in field \"" ++
            sourceField.name ++ "\" not found in target")
  ⟨some (sourceValues.filterMap (fun v => (step v).getLeft?)),
    sourceValues.filterMap (fun v => (step v).getRight?)⟩

/-- Specification-side description of how one select value entry resolves
under the indexed resolver: the emitted value, when one is emitted. -/
def selectResolve (targetField : CustomField)
    (catalogIndex : Option (List (String × CatalogEntry)))
    (valueEntry : ValueEntry) : Option OutValue :=
  match valueEntry.value_catalog_entry_name.or valueEntry.value_option_value with
  | none => none
  | some sourceName =>
    match catalogIndex with
    | some idx =>
      (lookupA idx (normalizeKey sourceName)).map
        (fun e => OutValue.catalogEntry e.id)
    | none =>
      (targetField.options.find?
        (fun o => jsLower o.value == jsLower sourceName)).map
        (fun o => OutValue.optionLink o.id)

/-- Specification-side description of how one select value entry resolves
under the indexed resolver: the warning, when the entry is dropped. -/
def selectDrop (sourceField targetField : CustomField)
    (catalogIndex : Option (List (String × CatalogEntry)))
    (valueEntry : ValueEntry) : Option String :=
  match valueEntry.value_catalog_entry_name.or valueEntry.value_option_value with
  | none =>
    some ("Value entry missing name in field \"" ++ sourceField.name ++ "\"")
  | some sourceName =>
    match selectResolve targetField catalogIndex valueEntry with
    | some _ => none
    | none =>
      some ("Option \"" ++ sourceName ++ "\" in field \"" ++
        sourceField.name ++ "\" not found in target")

/-! ## Upsert decision engine (from `src/import/importer.ts`) -/

/-- Incident visibility. -/
inductive Visibility where
  | publicV
  | privateV
  deriving DecidableEq, Repr

/-- The fields of a normalized source incident read by the import engine. -/
structure Incident where
  id : String
  reference : String
  name : String
  summary : Option String
  visibility : Visibility
  severity : Option SourceSeverity
  status : Option SourceStatus
  incident_type : Option SourceType
  custom_field_values : List CustomFieldValue
  incident_timestamp_values : List TimestampValue
  incident_role_assignments : List RoleAssignment
  postmortem_document_url : Option String
  deriving DecidableEq, Repr

/-- `MappingContext`: the configuration snapshot of the target environment. -/
structure MappingContext where
  severities : List (String × Severity)
  statuses : List (String × IncidentStatus)
  types : List (String × IncidentType)
  customFields : List (String × CustomField)
  timestamps : List (String × IncidentTimestamp)
  roles : List (String × IncidentRole)
  users : List (String × User)
  catalogEntries : List (String × List CatalogEntry)
  deriving Repr

/-- `ImportResult.status`. -/
inductive ImportStatus where
  | created
  | updated
  | skipped
  | failed
  deriving DecidableEq, Repr

/-- `ImportResult`. -/
structure ImportResult where
  sourceIncidentId : String
  targetIncidentId : Option String
  status : ImportStatus
  warnings : List String
  error : Option String
  deriving DecidableEq, Repr

/-- The import options read by `importIncident` and `createIncident`. -/
structure ImportOpts where
  dryRun : Bool
  strict : Bool
  skipSlackChannel : Bool
  skipExternalId : Bool
  deriving DecidableEq, Repr

/-- The `mapping` record of the dedup state: source incident id to target id. -/
abbrev StateMap := List (String × String)

/-- A target-environment incident as seen through the API. -/
structure RemoteIncident where
  id : String
  reference : String
  deriving DecidableEq, Repr

/-- `UpdateIncidentRequest.incident`: the fields an update may carry.  The
TypeScript interface has exactly these optional fields — it has no visibility
and no incident-type field at all, and `incident_status_id`, though present in
the interface, is never set by the engine. -/
structure UpdateIncidentRequest where
  name : String
  summary : Option String
  severity_id : Option String
  incident_status_id : Option String
  incident_timestamp_values : Option (List TimestampValue)
  custom_field_entries : Option (List OutCustomFieldValue)
  incident_role_assignments : Option (List OutRoleAssignment)
  notify_incident_channel : Bool
  deriving DecidableEq, Repr

/-- `CreateIncidentRequest` with the retrospective options flattened in. -/
structure CreateIncidentRequest where
  name : String
  summary : Option String
  visibility : Visibility
  idempotency_key : String
  external_id : Option Nat
  postmortem_document_url : Option String
  slack_channel_id : Option String
  severity_id : Option String
  incident_status_id : Option String
  incident_type_id : Option String
  incident_timestamp_values : Option (List TimestampValue)
  incident_role_assignments : Option (List OutRoleAssignment)
  custom_field_entries : Option (List OutCustomFieldValue)
  deriving DecidableEq, Repr

/-- The deterministic remote target environment: which external numeric ids
already exist, a fresh-id counter, how many create calls were issued, and
every update call issued (target incident id paired with its payload). -/
structure RemoteEnv where
  externalIds : List Nat
  counter : Nat
  createCalls : Nat
  updates : List (String × UpdateIncidentRequest)
  deriving DecidableEq, Repr

/-- The per-incident resolver outputs handed to the create/update builders. -/
structure MappedFields where
  severityResult : MappingResult String
  statusResult : MappingResult String
  typeResult : MappingResult String
  timestampResult : MappingResult (List TimestampValue)
  roleResult : MappingResult (List OutRoleAssignment)
  customFieldResult : MappingResult (List OutCustomFieldValue)
  deriving DecidableEq, Repr

/-- JavaScript truthiness of `xs?.length` used as a guard for optional list
payload fields: the field is set only for a present, non-empty list. -/
def optList {α : Type} (v : Option (List α)) : Option (List α) :=
  match v with
  | some l => if l.length ≠ 0 then some l else none
  | none => none

/-- `reference.match(/\d+$/)` then `parseInt`: the trailing digits of the
human-readable reference, as the external numeric id. -/
def extractNumericId (reference : String) : Option Nat :=
  let ds := (reference.data.reverse.takeWhile (fun c => c.isDigit)).reverse
  if ds.isEmpty then none else some (digitsVal ds)

/-- The fake Slack channel id built for MS-Teams targets:
the id stripped to its first ten alphanumeric characters, uppercased, with a
leading C. -/
def fakeSlackChannelId (id : String) : String :=
  "C" ++ String.mk
    (((id.data.filter (fun c => c.isAlpha || c.isDigit)).take 10).map Char.toUpper)

/-- The update payload built by `Importer.updateIncident`: name and summary,
plus severity, timestamps, custom fields and role assignments when resolved
and non-empty.  Role assignments are filtered through the supplied roles map:
an assignment is kept unless its role resolves to role type reporter — so an
assignment whose id is absent from the supplied map is kept. -/
def buildUpdateRequest (incident : Incident) (mapped : MappedFields)
    (roles : List (String × IncidentRole)) : UpdateIncidentRequest :=
  { name := incident.name
    summary := incident.summary
    severity_id := mapped.severityResult.value
    incident_status_id := none
    incident_timestamp_values := optList mapped.timestampResult.value
    custom_field_entries := optList mapped.customFieldResult.value
    incident_role_assignments :=
      match optList mapped.roleResult.value with
      | some l =>
        let nonReporter := l.filter (fun r =>
          match lookupA roles r.incident_role_id with
          | some role => !(role.role_type == RoleType.reporter)
          | none => true)
        if nonReporter.length ≠ 0 then some nonReporter else none
      | none => none
    notify_incident_channel := false }

/-- The create payload built by `Importer.createIncident`. -/
def buildCreateRequest (incident : Incident) (mapped : MappedFields)
    (visibility : Visibility) (opts : ImportOpts) : CreateIncidentRequest :=
  { name := incident.name
    summary := incident.summary
    visibility := visibility
    idempotency_key := "retro-import:" ++ incident.id
    external_id :=
      if opts.skipExternalId then none else extractNumericId incident.reference
    postmortem_document_url := incident.postmortem_document_url
    slack_channel_id :=
      if opts.skipSlackChannel then some (fakeSlackChannelId incident.id)
      else none
    severity_id := mapped.severityResult.value
    incident_status_id := mapped.statusResult.value
    incident_type_id := mapped.typeResult.value
    incident_timestamp_values := optList mapped.timestampResult.value
    incident_role_assignments := optList mapped.roleResult.value
    custom_field_entries := optList mapped.customFieldResult.value }

/-- The remote create call: it counts the attempt, and fails exactly when the
requested external numeric id already exists in the target; otherwise a fresh
incident is allocated (and its external id registered). -/
def remoteCreate (rem : RemoteEnv) (req : CreateIncidentRequest) :
    Except String RemoteIncident × RemoteEnv :=
  match req.external_id with
  | some n =>
    if rem.externalIds.contains n then
      (.error "API error (422): external ID already exists",
        { rem with createCalls := rem.createCalls + 1 })
    else
      (.ok ⟨"tgt-" ++ toString rem.counter, "TGT-" ++ toString rem.counter⟩,
        { rem with createCalls := rem.createCalls + 1,
                   counter := rem.counter + 1,
                   externalIds := n :: rem.externalIds })
  | none =>
    (.ok ⟨"tgt-" ++ toString rem.counter, "TGT-" ++ toString rem.counter⟩,
      { rem with createCalls := rem.createCalls + 1,
                 counter := rem.counter + 1 })

/-- The remote update call: records the issued payload and returns the
updated incident. -/
def remoteUpdate (rem : RemoteEnv) (targetId : String)
    (req : UpdateIncidentRequest) : RemoteIncident × RemoteEnv :=
  (⟨targetId, targetId⟩, { rem with updates := rem.updates ++ [(targetId, req)] })

/-- `Importer.updateIncident`: build the restricted update payload (filtering
the reporter role through the supplied roles map) and issue the update. -/
def updateIncidentStep (targetId : String) (incident : Incident)
    (mapped : MappedFields) (roles : List (String × IncidentRole))
    (rem : RemoteEnv) : RemoteIncident × RemoteEnv :=
  remoteUpdate rem targetId (buildUpdateRequest incident mapped roles)

/-- `Importer.createIncident`: attempt the create; on an external-id conflict,
re-resolve the existing target incident from the same reference map and, when
found, fall back to an update issued with an empty roles map
(`{ roles: new Map() } as MappingContext` in the source), recording the
source-to-target mapping; when not found, fail. -/
def createIncidentStep (incident : Incident) (mapped : MappedFields)
    (visibility : Visibility) (opts : ImportOpts)
    (refMap : List (String × RemoteIncident)) (state : StateMap)
    (rem : RemoteEnv) :
    Except String (RemoteIncident × StateMap × List String) × RemoteEnv :=
  match remoteCreate rem (buildCreateRequest incident mapped visibility opts) with
  | (.ok created, rem') => (.ok (created, state, []), rem')
  | (.error msg, rem') =>
    if strContains msg "external ID already exists" then
      match lookupA refMap incident.reference with
      | some existing =>
        let ur := updateIncidentStep existing.id incident mapped [] rem'
        (.ok (ur.1, insertA state incident.id ur.1.id,
          ["Incident " ++ incident.reference ++
            " already exists, updating instead"]), ur.2)
      | none =>
        (.error ("External ID " ++ incident.reference ++
          " exists but incident not found"), rem')
    else (.error msg, rem')

/-- The visibility correction in `Importer.importIncident`: a resolved
incident type marked private-incidents-only forces a public source incident
to private, with a warning. -/
def adjustVisibility (incident : Incident) (typeResult : MappingResult String)
    (types : List (String × IncidentType)) : Visibility × List String :=
  match typeResult.value with
  | some tid =>
    match lookupA types tid with
    | some t =>
      if t.private_incidents_only && incident.visibility == Visibility.publicV
      then
        (Visibility.privateV,
          ["Visibility changed to private (incident type \"" ++ t.name ++
            "\" requires private)"])
      else (incident.visibility, [])
    | none => (incident.visibility, [])
  | none => (incident.visibility, [])

/-- `Importer.importIncident` (the upsert revision): resolve the existing
target incident from the dedup state, then from the reference map (recording
the mapping immediately when found there); resolve all entities; apply strict
mode; correct visibility; then report in dry-run mode, update an existing
incident, or create a new one.  Thrown errors (the reduce-of-empty in the
severity resolver, strict-mode aborts, create failures) are caught into a
failed result. -/
def importIncident (inc : Incident) (ctx : MappingContext) (state : StateMap)
    (opts : ImportOpts) (refMap : List (String × RemoteIncident))
    (rem : RemoteEnv) : ImportResult × StateMap × RemoteEnv :=
  let resolved : Option String × StateMap :=
    match lookupA state inc.id with
    | some tid => (some tid, state)
    | none =>
      match lookupA refMap inc.reference with
      | some byRef => (some byRef.id, insertA state inc.id byRef.id)
      | none => (none, state)
  let existingIncidentId := resolved.1
  let state1 := resolved.2
  match mapSeverity inc.severity ctx.severities with
  | .error e =>
    ({ sourceIncidentId := inc.id, targetIncidentId := none,
       status := .failed, warnings := [], error := some e }, state1, rem)
  | .ok severityResult =>
    let statusResult := mapStatus inc.status ctx.statuses
    let typeResult := mapIncidentType inc.incident_type ctx.types
    let timestampResult :=
      mapTimestampsWithContext inc.incident_timestamp_values [] ctx.timestamps
    let roleResult :=
      mapRoleAssignments inc.incident_role_assignments [] ctx.roles ctx.users
    let customFieldResult :=
      mapCustomFieldValues inc.custom_field_values [] ctx.customFields
        ctx.catalogEntries
    let mapped : MappedFields :=
      ⟨severityResult, statusResult, typeResult, timestampResult, roleResult,
        customFieldResult⟩
    let warnings := severityResult.warnings ++ statusResult.warnings ++
      typeResult.warnings ++ timestampResult.warnings ++ roleResult.warnings ++
      customFieldResult.warnings
    if opts.strict && severityResult.value.isNone then
      ({ sourceIncidentId := inc.id, targetIncidentId := none,
         status := .failed, warnings := warnings,
         error := some "Severity mapping failed" }, state1, rem)
    else if opts.strict && statusResult.value.isNone then
      ({ sourceIncidentId := inc.id, targetIncidentId := none,
         status := .failed, warnings := warnings,
         error := some "Status mapping failed" }, state1, rem)
    else
      let va := adjustVisibility inc typeResult ctx.types
      let warnings2 := warnings ++ va.2
      if opts.dryRun then
        match existingIncidentId with
        | some tid =>
          ({ sourceIncidentId := inc.id, targetIncidentId := some tid,
             status := .updated, warnings := warnings2, error := none },
            state1, rem)
        | none =>
          ({ sourceIncidentId := inc.id, targetIncidentId := some "dry-run-id",
             status := .created, warnings := warnings2, error := none },
            state1, rem)
      else
        match existingIncidentId with
        | some tid =>
          let ur := updateIncidentStep tid inc mapped ctx.roles rem
          ({ sourceIncidentId := inc.id, targetIncidentId := some ur.1.id,
             status := .updated, warnings := warnings2, error := none },
            state1, ur.2)
        | none =>
          match createIncidentStep inc mapped va.1 opts refMap state1 rem with
          | (.ok (created, state2, extraW), rem') =>
            ({ sourceIncidentId := inc.id, targetIncidentId := some created.id,
               status := .created, warnings := warnings2 ++ extraW,
               error := none }, state2, rem')
          | (.error e, rem') =>
            ({ sourceIncidentId := inc.id, targetIncidentId := none,
               status := .failed, warnings := warnings2, error := some e },
              state1, rem')

/-- The worker accumulator in `Importer.import`: after an item reports
created or updated with a target id, record the source-to-target mapping. -/
def accumulate (state : StateMap) (incId : String) (r : ImportResult) :
    StateMap :=
  if r.status = ImportStatus.created ∨ r.status = ImportStatus.updated then
    match r.targetIncidentId with
    | some tid => insertA state incId tid
    | none => state
  else state

/-- One run of the import pipeline over a bundle stream.  The worker pool
drains one shared queue, each worker completing an item (including its remote
calls) before taking the next and the accumulator recording its mapping; the
run is embedded as the sequential drain of that queue. -/
def runImport (ctx : MappingContext) (opts : ImportOpts)
    (refMap : List (String × RemoteIncident)) :
    List Incident → StateMap → RemoteEnv →
    List ImportResult × StateMap × RemoteEnv
  | [], state, rem => ([], state, rem)
  | inc :: rest, state, rem =>
    let one := importIncident inc ctx state opts refMap rem
    let state2 := accumulate one.2.1 inc.id one.1
    let tail := runImport ctx opts refMap rest state2 one.2.2
    (one.1 :: tail.1, tail.2)

/-- The status-default block of `Importer.importIncident` (the translator
revisions that default a missing source status): after `mapStatus`, when no
value was resolved and the source carried no status at all, search the target
statuses for one of category closed or with closed in its name and substitute
it with an explicit warning. -/
def resolveStatusForImport (sourceStatus : Option SourceStatus)
    (targetStatuses : List (String × IncidentStatus)) : MappingResult String :=
  let statusResult := mapStatus sourceStatus targetStatuses
  if statusResult.value.isNone && sourceStatus.isNone then
    match targetStatuses.find? (fun p =>
        p.2.category == "closed" || strContains (jsLower p.2.name) "closed") with
    | some p => ⟨some p.1, ["Status was null in source, defaulted to Closed"]⟩
    | none => statusResult
  else statusResult

/-- An incident is blocked before any remote call: its severity resolution
throws, or strict mode rejects its severity or status resolution.  This is
determined by the incident, the context and the options alone. -/
def blockedBeforeRemote (inc : Incident) (ctx : MappingContext)
    (opts : ImportOpts) : Bool :=
  match mapSeverity inc.severity ctx.severities with
  | .error _ => true
  | .ok sres =>
    opts.strict &&
      (sres.value.isNone || (mapStatus inc.status ctx.statuses).value.isNone)

/-- The create attempt of an incident would hit the external-id conflict against
the given remote environment. -/
def createConflicted (opts : ImportOpts) (inc : Incident) (rem : RemoteEnv) :
    Bool :=
  !opts.skipExternalId &&
    (match extractNumericId inc.reference with
     | some n => rem.externalIds.contains n
     | none => false)

/-! ## Concrete scenario data used by the witnesses and counterexamples -/

/-- The target severities of the concrete severity scenario:
Critical rank 1, Major rank 2, Minor rank 3. -/
def sevDemoTargets : List (String × Severity) :=
  [("sev1", ⟨"sev1", "Critical", 1⟩), ("sev2", ⟨"sev2", "Major", 2⟩),
   ("sev3", ⟨"sev3", "Minor", 3⟩)]

/-- The target statuses of the concrete status scenario. -/
def statusDemoTargets : List (String × IncidentStatus) :=
  [("st1", ⟨"st1", "Triage", "triage", 1⟩),
   ("st2", ⟨"st2", "Investigating", "live", 2⟩),
   ("st3", ⟨"st3", "Resolved", "closed", 3⟩)]

/-- An empty mapping context. -/
def emptyCtx : MappingContext :=
  { severities := [], statuses := [], types := [], customFields := [],
    timestamps := [], roles := [], users := [], catalogEntries := [] }

/-- The default import options: a plain non-dry, non-strict run. -/
def plainOpts : ImportOpts :=
  { dryRun := false, strict := false, skipSlackChannel := false,
    skipExternalId := false }

/-- An empty remote target environment. -/
def emptyRemote : RemoteEnv :=
  { externalIds := [], counter := 0, createCalls := 0, updates := [] }

/-- A minimal incident with no entity references. -/
def plainIncident (id reference : String) : Incident :=
  { id := id, reference := reference, name := "n", summary := none,
    visibility := .publicV, severity := none, status := none,
    incident_type := none, custom_field_values := [],
    incident_timestamp_values := [], incident_role_assignments := [],
    postmortem_document_url := none }

/-- The target roles map of the reporter scenario: a reporter-typed role and
a lead-typed role. -/
def reporterDemoRoles : List (String × IncidentRole) :=
  [("r-rep", ⟨"r-rep", "Reporter", .reporter⟩),
   ("r-lead", ⟨"r-lead", "Lead", .lead⟩)]

/-- The incident of the reporter-filter scenario: two role assignments whose
source roles resolve by name to the reporter role and to the lead role of the
target. -/
def reporterDemoIncident : Incident :=
  { plainIncident "i4" "INC-4" with
      incident_role_assignments :=
        [⟨"sr-rep", some ⟨"sr-rep", "Reporter", .reporter⟩, none⟩,
         ⟨"sr-lead", some ⟨"sr-lead", "Lead", .lead⟩, none⟩] }

/-- The mapping context of the reporter-filter scenario: the target roles map
carries the reporter-typed and the lead-typed role. -/
def reporterDemoCtx : MappingContext :=
  { emptyCtx with roles := reporterDemoRoles }

/-- The one update payload the reporter-filter scenario records: the
assignment resolved to the reporter role is filtered out, the one resolved to
the lead role is kept, and no status field is set. -/
def reporterDemoPayload : String × UpdateIncidentRequest :=
  ("t4",
    { name := "n", summary := none, severity_id := none,
      incident_status_id := none, incident_timestamp_values := none,
      custom_field_entries := none,
      incident_role_assignments := some [⟨"r-lead", none⟩],
      notify_incident_channel := false })

end IncidentMigrator

namespace IncidentMigrator

/-! ## Association-list lemmas -/

theorem lookupA_insertA_self {α : Type} (l : List (String × α)) (k : String)
    (v : α) : lookupA (insertA l k v) k = some v := by
  simp [lookupA, insertA, List.find?]

theorem lookupA_insertA_ne {α : Type} (l : List (String × α)) (k k' : String)
    (v : α) (h : k' ≠ k) : lookupA (insertA l k v) k' = lookupA l k' := by
  simp only [lookupA, insertA, List.find?]
  have hk : (k == k') = false := by
    simp only [beq_eq_false_iff_ne, ne_eq]
    exact fun hkk => h hkk.symm
  simp [hk]

theorem lookupA_insertA_isSome {α : Type} (l : List (String × α))
    (k k' : String) (v : α) (h : (lookupA l k').isSome = true) :
    (lookupA (insertA l k v) k').isSome = true := by
  by_cases hk : k' = k
  · subst hk; simp [lookupA_insertA_self]
  · rwa [lookupA_insertA_ne _ _ _ _ hk]

/-! ## C10 — resolvers on an absent source entity -/

/-- C10: each single-entity resolver (severity, status, incident type, user),
given an absent source entity, returns a result with no value and an empty
warnings list, for every target map. -/
theorem resolvers_absent_source :
    (∀ t : List (String × Severity), mapSeverity none t = .ok ⟨none, []⟩) ∧
    (∀ t : List (String × IncidentStatus), mapStatus none t = ⟨none, []⟩) ∧
    (∀ t : List (String × IncidentType), mapIncidentType none t = ⟨none, []⟩) ∧
    (∀ t : List (String × User), mapUser none t = ⟨none, []⟩) :=
  ⟨fun _ => rfl, fun _ => rfl, fun _ => rfl, fun _ => rfl⟩

/-! ## C9 — resolver totality -/

/-- C9 counterexample: `mapSeverity` does not return a result when the source
severity matches nothing by name and the target severity map is empty — the
seedless `[].reduce` of the rank fallback throws.  This refutes the claim that
every resolver returns a Resolution Result and never throws for a not-found
entity. -/
theorem mapSeverity_throws_on_empty_targets :
    mapSeverity (some ⟨"src1", "P1", 1⟩) [] =
      .error "Reduce of empty array with no initial value" := by
  rfl

theorem sortByRank_length (l : List Severity) :
    (sortByRank l).length = l.length := by
  have hins : ∀ (x : Severity) (m : List Severity),
      (insertByRank x m).length = m.length + 1 := by
    intro x m
    induction m with
    | nil => rfl
    | cons y ys ih =>
      by_cases hy : y.rank < x.rank
      · simp [insertByRank, hy, ih]
      · simp [insertByRank, hy]
  induction l with
  | nil => rfl
  | cons x xs ih =>
    show (insertByRank x (List.foldr insertByRank [] xs)).length = xs.length + 1
    rw [hins]
    simp only [sortByRank] at ih
    rw [ih]

/-- C9 amended: every resolver is total except that `mapSeverity` throws when
the source severity is present, matches no target by name, and the target
severity map is empty; with an absent source severity or a non-empty target
severity map it always returns a Resolution Result. -/
theorem mapSeverity_total_on_nonempty (src : Option SourceSeverity)
    (targets : List (String × Severity))
    (h : src = none ∨ targets ≠ []) :
    ∃ r, mapSeverity src targets = .ok r := by
  match src with
  | none => exact ⟨⟨none, []⟩, rfl⟩
  | some s =>
    have hne : targets ≠ [] := by
      rcases h with h | h
      · cases h
      · exact h
    cases hf : targets.find? (fun p => jsLower p.2.name == jsLower s.name) with
    | some p => exact ⟨⟨some p.1, []⟩, by simp [mapSeverity, hf]⟩
    | none =>
      cases hs : sortByRank (targets.map Prod.snd) with
      | cons hd tl =>
        refine ⟨⟨some (tl.foldl (closerStep s.rank) hd).id,
          ["Severity \"" ++ s.name ++ "\" not found, mapped to \"" ++
            (tl.foldl (closerStep s.rank) hd).name ++ "\" by rank"]⟩, ?_⟩
        simp [mapSeverity, hf, hs]
      | nil =>
        exfalso
        have hlen := sortByRank_length (targets.map Prod.snd)
        rw [hs] at hlen
        simp only [List.length_nil, List.length_map] at hlen
        exact hne (List.length_eq_zero.mp hlen.symm)

/-- Witness for the amended C9 theorem at a concrete non-empty target map. -/
theorem mapSeverity_total_on_nonempty_witness :
    ((some (⟨"src1", "P1", 1⟩ : SourceSeverity)) = none ∨ sevDemoTargets ≠ []) ∧
    ∃ r, mapSeverity (some ⟨"src1", "P1", 1⟩) sevDemoTargets = .ok r :=
  ⟨Or.inr (by decide),
    mapSeverity_total_on_nonempty (some ⟨"src1", "P1", 1⟩) sevDemoTargets
      (Or.inr (by decide))⟩

/-! ## C7 — status default policy -/

/-- C7 counterexample: with a source incident carrying no status and a target
status set containing no status of category closed and none whose name
contains closed, the translator leaves the status unset — refuting the claim
that the resolved status is always non-empty when the source status is
absent. -/
theorem statusDefault_requires_closed_target :
    (resolveStatusForImport none [("o", ⟨"o", "Open", "live", 1⟩)]).value
      = none := by
  decide

/-- C7 amended: when the source incident has no status and the target status
set does contain a status whose category is closed or whose lowercased name
contains closed, the translator substitutes the first such status, with
exactly one warning naming the default, instead of leaving the status
unset. -/
theorem statusDefault_resolution (targets : List (String × IncidentStatus))
    (p : String × IncidentStatus)
    (h : targets.find? (fun q =>
        q.2.category == "closed" || strContains (jsLower q.2.name) "closed")
      = some p) :
    resolveStatusForImport none targets =
      ⟨some p.1, ["Status was null in source, defaulted to Closed"]⟩ ∧
    (p.2.category = "closed" ∨ strContains (jsLower p.2.name) "closed" = true) := by
  constructor
  · unfold resolveStatusForImport
    simp [mapStatus, h]
  · have hp := List.find?_some h
    simp only [Bool.or_eq_true, beq_iff_eq] at hp
    exact hp

/-- Witness for the amended C7 theorem at the concrete demo target set. -/
theorem statusDefault_resolution_witness :
    statusDemoTargets.find? (fun q =>
        q.2.category == "closed" || strContains (jsLower q.2.name) "closed")
      = some ("st3", ⟨"st3", "Resolved", "closed", 3⟩) ∧
    (resolveStatusForImport none statusDemoTargets =
      ⟨some "st3", ["Status was null in source, defaulted to Closed"]⟩ ∧
    (("st3", (⟨"st3", "Resolved", "closed", 3⟩ : IncidentStatus)).2.category
        = "closed" ∨
      strContains (jsLower (⟨"st3", "Resolved", "closed", 3⟩ :
        IncidentStatus).name) "closed" = true)) :=
  ⟨by decide,
    statusDefault_resolution statusDemoTargets
      ("st3", ⟨"st3", "Resolved", "closed", 3⟩) (by decide)⟩

/-! ## String containment lemmas -/

theorem headMatches_append (n l m : List Char) (h : headMatches n l = true) :
    headMatches n (l ++ m) = true := by
  induction n generalizing l with
  | nil => simp [headMatches]
  | cons a as ih =>
    cases l with
    | nil => cases h
    | cons b bs =>
      simp only [headMatches, Bool.and_eq_true] at h
      simp only [List.cons_append, headMatches, Bool.and_eq_true]
      exact ⟨h.1, ih bs h.2⟩

theorem charsContain_append_left (xs ys n : List Char)
    (h : charsContain xs n = true) : charsContain (xs ++ ys) n = true := by
  induction xs with
  | nil =>
    simp only [charsContain, List.isEmpty_iff] at h
    subst h
    cases ys with
    | nil => rfl
    | cons y t => simp [charsContain, headMatches]
  | cons x t ih =>
    simp only [charsContain, Bool.or_eq_true] at h
    simp only [List.cons_append, charsContain, Bool.or_eq_true]
    cases h with
    | inl h => exact Or.inl (by simpa using headMatches_append n (x :: t) ys h)
    | inr h => exact Or.inr (ih h)

theorem charsContain_append_right (xs ys n : List Char)
    (h : charsContain ys n = true) : charsContain (xs ++ ys) n = true := by
  induction xs with
  | nil => exact h
  | cons x t ih =>
    simp only [List.cons_append, charsContain, Bool.or_eq_true]
    exact Or.inr ih

theorem strContains_append_right (a b n : String)
    (h : strContains b n = true) : strContains (a ++ b) n = true := by
  simp only [strContains] at h ⊢
  exact charsContain_append_right a.data b.data n.data h

theorem strContains_append_left (a b n : String)
    (h : strContains a n = true) : strContains (a ++ b) n = true := by
  simp only [strContains] at h ⊢
  exact charsContain_append_left a.data b.data n.data h

/-! ## C6 — status resolution fallback chain -/

/-- C6: for every source status, `mapStatus` resolves first by
case-insensitive name together with equal category (zero warnings), then by
name only, then by any status of the same category, each fallback returning
the id of the first matched entry with exactly one warning; on a total miss it
returns no value with exactly one warning containing the text could not be
mapped.  The final conjunct is the concrete scenario: `Unknown`/`live`
against the demo target set resolves to the `live` status with one
warning. -/
theorem mapStatus_fallback_chain (s : SourceStatus)
    (targets : List (String × IncidentStatus)) :
    (∀ p, targets.find? (fun q =>
          jsLower q.2.name == jsLower s.name && q.2.category == s.category)
        = some p →
      mapStatus (some s) targets = ⟨some p.1, []⟩) ∧
    (targets.find? (fun q =>
          jsLower q.2.name == jsLower s.name && q.2.category == s.category)
        = none →
      ∀ p, targets.find? (fun q => jsLower q.2.name == jsLower s.name)
        = some p →
      mapStatus (some s) targets =
        ⟨some p.1,
          ["Status \"" ++ s.name ++ "\" found but category differs (source: " ++
            s.category ++ ", target: " ++ p.2.category ++ ")"]⟩) ∧
    (targets.find? (fun q =>
          jsLower q.2.name == jsLower s.name && q.2.category == s.category)
        = none →
      targets.find? (fun q => jsLower q.2.name == jsLower s.name) = none →
      ∀ p, targets.find? (fun q => q.2.category == s.category) = some p →
      mapStatus (some s) targets =
        ⟨some p.1,
          ["Status \"" ++ s.name ++ "\" not found, mapped to \"" ++
            p.2.name ++ "\" by category"]⟩) ∧
    (targets.find? (fun q =>
          jsLower q.2.name == jsLower s.name && q.2.category == s.category)
        = none →
      targets.find? (fun q => jsLower q.2.name == jsLower s.name) = none →
      targets.find? (fun q => q.2.category == s.category) = none →
      mapStatus (some s) targets =
        ⟨none,
          ["Status \"" ++ s.name ++ "\" (" ++ s.category ++
            ") could not be mapped"]⟩ ∧
      strContains ("Status \"" ++ s.name ++ "\" (" ++ s.category ++
        ") could not be mapped") "could not be mapped" = true) ∧
    mapStatus (some ⟨"src1", "Unknown", "live"⟩) statusDemoTargets =
      ⟨some "st2",
        ["Status \"Unknown\" not found, mapped to \"Investigating\" by category"]⟩
    := by
  refine ⟨?_, ?_, ?_, ?_, by decide⟩
  · intro p h1
    simp [mapStatus, h1]
  · intro h1 p h2
    simp [mapStatus, h1, h2]
  · intro h1 h2 p h3
    simp [mapStatus, h1, h2, h3]
  · intro h1 h2 h3
    refine ⟨by simp [mapStatus, h1, h2, h3], ?_⟩
    exact strContains_append_right _ _ _ (by decide)

/-- Witness for C6, taking the category-only fallback branch at the concrete
status scenario. -/
theorem mapStatus_fallback_chain_witness :
    (statusDemoTargets.find? (fun q =>
        jsLower q.2.name == jsLower "Unknown" && q.2.category == "live")
      = none) ∧
    (statusDemoTargets.find? (fun q => jsLower q.2.name == jsLower "Unknown")
      = none) ∧
    mapStatus (some ⟨"src1", "Unknown", "live"⟩) statusDemoTargets =
      ⟨some "st2",
        ["Status \"Unknown\" not found, mapped to \"Investigating\" by category"]⟩
    := by
  refine ⟨by decide, by decide, ?_⟩
  exact ((mapStatus_fallback_chain ⟨"src1", "Unknown", "live"⟩
    statusDemoTargets).2.2.1 (by decide) (by decide)
    ("st2", ⟨"st2", "Investigating", "live", 2⟩) (by decide))

/-! ## C3 — severity resolution -/

theorem mem_insertByRank (x y : Severity) (l : List Severity) :
    y ∈ insertByRank x l ↔ y = x ∨ y ∈ l := by
  induction l with
  | nil => simp [insertByRank]
  | cons z zs ih =>
    by_cases hz : z.rank < x.rank
    · simp only [insertByRank, if_pos hz, List.mem_cons, ih]
      tauto
    · simp only [insertByRank, if_neg hz, List.mem_cons]

theorem mem_sortByRank (x : Severity) (l : List Severity) :
    x ∈ sortByRank l ↔ x ∈ l := by
  induction l with
  | nil => simp [sortByRank]
  | cons a t ih =>
    show x ∈ insertByRank a (List.foldr insertByRank [] t) ↔ _
    rw [mem_insertByRank]
    simp only [sortByRank] at ih
    rw [ih, List.mem_cons]

/-- The seedless `reduce` over the rank-sorted list picks the first element of
that list achieving the minimal rank distance: the result splits the list into
a prefix of strictly-farther elements, itself, and a remainder over which it
is still minimal. -/
theorem foldl_closerStep_firstMin (r : Int) (t : List Severity) (h : Severity) :
    ∃ pre post,
      h :: t = pre ++ (t.foldl (closerStep r) h) :: post ∧
      (∀ y ∈ pre, rankDist r (t.foldl (closerStep r) h) < rankDist r y) ∧
      (∀ y ∈ h :: t, rankDist r (t.foldl (closerStep r) h) ≤ rankDist r y) := by
  induction t generalizing h with
  | nil => exact ⟨[], [], rfl, by simp, by simp⟩
  | cons c t ih =>
    have hfold : (c :: t).foldl (closerStep r) h =
        t.foldl (closerStep r) (closerStep r h c) := by
      simp [List.foldl_cons]
    by_cases hc : rankDist r c < rankDist r h
    · have hstep : closerStep r h c = c := by simp [closerStep, hc]
      obtain ⟨pre, post, hdec, hpre, hmin⟩ := ih c
      rw [hfold, hstep]
      refine ⟨h :: pre, post, ?_, ?_, ?_⟩
      · rw [List.cons_append, ← hdec]
      · intro y hy
        rcases List.mem_cons.mp hy with hy | hy
        · subst hy
          exact lt_of_le_of_lt (hmin c (List.mem_cons_self c t)) hc
        · exact hpre y hy
      · intro y hy
        rcases List.mem_cons.mp hy with hy | hy
        · subst hy
          exact le_of_lt (lt_of_le_of_lt (hmin c (List.mem_cons_self c t)) hc)
        · exact hmin y hy
    · have hstep : closerStep r h c = h := by simp [closerStep, hc]
      have hch : rankDist r h ≤ rankDist r c := Nat.le_of_not_lt hc
      obtain ⟨pre, post, hdec, hpre, hmin⟩ := ih h
      rw [hfold, hstep]
      cases pre with
      | nil =>
        simp only [List.nil_append] at hdec
        injection hdec with hres hpost
        refine ⟨[], c :: t, ?_, by simp, ?_⟩
        · simp [← hres]
        · intro y hy
          rcases List.mem_cons.mp hy with hy | hy
          · subst hy
            rw [← hres]
          · rcases List.mem_cons.mp hy with hy | hy
            · subst hy
              rw [← hres]
              exact hch
            · exact hmin y (List.mem_cons_of_mem h hy)
      | cons p pre' =>
        rw [List.cons_append] at hdec
        injection hdec with hp ht
        have hHpre : rankDist r (t.foldl (closerStep r) h) < rankDist r h := by
          have hmem := hpre p (List.mem_cons_self p pre')
          rwa [← hp] at hmem
        refine ⟨h :: c :: pre', post, ?_, ?_, ?_⟩
        · rw [List.cons_append, List.cons_append]
          rw [← ht]
        · intro y hy
          rcases List.mem_cons.mp hy with hy | hy
          · subst hy
            exact hHpre
          · rcases List.mem_cons.mp hy with hy | hy
            · subst hy
              exact lt_of_lt_of_le hHpre hch
            · exact hpre y (List.mem_cons_of_mem p hy)
        · intro y hy
          rcases List.mem_cons.mp hy with hy | hy
          · rw [hy]
            exact hmin h (List.mem_cons_self h t)
          · rcases List.mem_cons.mp hy with hy | hy
            · rw [hy]
              exact le_trans (hmin h (List.mem_cons_self h t)) hch
            · exact hmin y (List.mem_cons_of_mem h hy)

/-- C3: for every source severity, when some target severity matches its name
case-insensitively `mapSeverity` returns the id of the first such entry with zero
warnings; otherwise (for a non-empty target map) it returns the severity of
minimal rank distance — the first minimizer in rank-sorted order, so ties
resolve deterministically — with exactly one warning containing mapped to.
The final conjuncts are the concrete scenario: source P1 of rank 1 against
Critical 1, Major 2, Minor 3 resolves to Critical with that warning. -/
theorem mapSeverity_resolution (s : SourceSeverity)
    (targets : List (String × Severity)) :
    (∀ p, targets.find? (fun q => jsLower q.2.name == jsLower s.name) = some p →
      mapSeverity (some s) targets = .ok ⟨some p.1, []⟩) ∧
    (targets.find? (fun q => jsLower q.2.name == jsLower s.name) = none →
      targets ≠ [] →
      ∃ e pre post,
        sortByRank (targets.map Prod.snd) = pre ++ e :: post ∧
        (∀ y ∈ pre, rankDist s.rank e < rankDist s.rank y) ∧
        (∀ q ∈ targets, rankDist s.rank e ≤ rankDist s.rank q.2) ∧
        mapSeverity (some s) targets = .ok ⟨some e.id,
          ["Severity \"" ++ s.name ++ "\" not found, mapped to \"" ++
            e.name ++ "\" by rank"]⟩ ∧
        strContains ("Severity \"" ++ s.name ++ "\" not found, mapped to \"" ++
          e.name ++ "\" by rank") "mapped to" = true) ∧
    mapSeverity (some ⟨"p1", "P1", 1⟩) sevDemoTargets = .ok ⟨some "sev1",
      ["Severity \"P1\" not found, mapped to \"Critical\" by rank"]⟩ ∧
    strContains "Severity \"P1\" not found, mapped to \"Critical\" by rank"
      "mapped to" = true := by
  refine ⟨?_, ?_, by rfl, by decide⟩
  · intro p hf
    simp [mapSeverity, hf]
  · intro hf hne
    cases hs : sortByRank (targets.map Prod.snd) with
    | nil =>
      exfalso
      have hlen := sortByRank_length (targets.map Prod.snd)
      rw [hs] at hlen
      simp only [List.length_nil, List.length_map] at hlen
      exact hne (List.length_eq_zero.mp hlen.symm)
    | cons hd tl =>
      obtain ⟨pre, post, hdec, hpre, hmin⟩ := foldl_closerStep_firstMin s.rank tl hd
      refine ⟨tl.foldl (closerStep s.rank) hd, pre, post, ?_, hpre, ?_, ?_, ?_⟩
      · exact hdec
      · intro q hq
        have hqmem : q.2 ∈ sortByRank (targets.map Prod.snd) :=
          (mem_sortByRank q.2 (targets.map Prod.snd)).mpr
            (List.mem_map_of_mem Prod.snd hq)
        rw [hs] at hqmem
        exact hmin q.2 hqmem
      · simp [mapSeverity, hf, hs]
      · have hmid : strContains
            (("Severity \"" ++ s.name) ++ "\" not found, mapped to \"")
            "mapped to" = true :=
          strContains_append_right _ _ _ (by decide)
        exact strContains_append_left _ _ _
          (strContains_append_left _ _ _ hmid)

/-- Witness for C3, taking the rank-fallback branch at the concrete P1
scenario. -/
theorem mapSeverity_resolution_witness :
    (sevDemoTargets.find? (fun q => jsLower q.2.name == jsLower "P1")
      = none) ∧
    sevDemoTargets ≠ [] ∧
    (∃ e pre post,
      sortByRank (sevDemoTargets.map Prod.snd) = pre ++ e :: post ∧
      (∀ y ∈ pre, rankDist (1 : Int) e < rankDist 1 y) ∧
      (∀ q ∈ sevDemoTargets, rankDist (1 : Int) e ≤ rankDist 1 q.2) ∧
      mapSeverity (some ⟨"p1", "P1", 1⟩) sevDemoTargets = .ok ⟨some e.id,
        ["Severity \"" ++ "P1" ++ "\" not found, mapped to \"" ++
          e.name ++ "\" by rank"]⟩ ∧
      strContains ("Severity \"" ++ "P1" ++ "\" not found, mapped to \"" ++
        e.name ++ "\" by rank") "mapped to" = true) :=
  ⟨by decide, by decide,
    (mapSeverity_resolution ⟨"p1", "P1", 1⟩ sevDemoTargets).2.1
      (by decide) (by decide)⟩

/-! ## C8 — custom field option resolution through the catalog index -/

theorem selectResolve_selectDrop_excl (f g : CustomField)
    (idx : Option (List (String × CatalogEntry))) (v : ValueEntry) :
    ((selectResolve g idx v).isSome ∧ (selectDrop f g idx v) = none) ∨
    ((selectResolve g idx v) = none ∧ (selectDrop f g idx v).isSome) := by
  cases hn : v.value_catalog_entry_name.or v.value_option_value with
  | none => exact Or.inr ⟨by simp [selectResolve, hn], by simp [selectDrop, hn]⟩
  | some n =>
    cases idx with
    | some i =>
      cases hl : lookupA i (normalizeKey n) with
      | some e =>
        exact Or.inl ⟨by simp [selectResolve, hn, hl],
          by simp [selectDrop, selectResolve, hn, hl]⟩
      | none =>
        exact Or.inr ⟨by simp [selectResolve, hn, hl],
          by simp [selectDrop, selectResolve, hn, hl]⟩
    | none =>
      cases ho : g.options.find? (fun o => jsLower o.value == jsLower n) with
      | some o =>
        exact Or.inl ⟨by simp [selectResolve, hn, ho],
          by simp [selectDrop, selectResolve, hn, ho]⟩
      | none =>
        exact Or.inr ⟨by simp [selectResolve, hn, ho],
          by simp [selectDrop, selectResolve, hn, ho]⟩

/-- C8: the select-value resolver consuming the catalog-entry index (modelled
from the spec — see `mapSelectFieldValueIndexed`) emits exactly the entries
resolved by `selectResolve` — normalized-key lookup in the catalog-entry index
for a catalog-backed target field, case-insensitive option-label match for an
option-backed one — and drops every other entry with exactly one warning
naming the option and the field (`selectDrop`), so that emitted values and
warnings together account for every source entry exactly once.  The final
conjunct resolves a concrete option through an alias key of the index built
by `buildCatalogIndex`. -/
theorem mapSelectFieldValueIndexed_resolution (vs : List ValueEntry)
    (f g : CustomField) (idx : Option (List (String × CatalogEntry))) :
    mapSelectFieldValueIndexed vs f g idx =
      ⟨some (vs.filterMap (selectResolve g idx)),
        vs.filterMap (selectDrop f g idx)⟩ ∧
    (vs.filterMap (selectResolve g idx)).length +
      (vs.filterMap (selectDrop f g idx)).length = vs.length ∧
    mapSelectFieldValueIndexed [⟨some "PAY", none⟩]
      ⟨"cf1", "Service", .single_select, some "ct1", []⟩
      ⟨"cf9", "Service", .single_select, some "ct1", []⟩
      (some (buildCatalogIndex
        [⟨"e1", "Payments", "ct1", some "EXT1", ["pay"]⟩])) =
      ⟨some [.catalogEntry "e1"], []⟩ := by
  refine ⟨?_, ?_, by decide⟩
  · unfold mapSelectFieldValueIndexed
    refine congrArg₂ MappingResult.mk (congrArg some ?_) ?_
    · refine List.filterMap_congr ?_
      intro v _
      cases hn : v.value_catalog_entry_name.or v.value_option_value with
      | none => simp [selectResolve, hn]
      | some n =>
        cases idx with
        | some i =>
          cases hl : lookupA i (normalizeKey n) <;>
            simp [selectResolve, hn, hl]
        | none =>
          cases ho : g.options.find? (fun o => jsLower o.value == jsLower n) <;>
            simp [selectResolve, hn, ho]
    · refine List.filterMap_congr ?_
      intro v _
      cases hn : v.value_catalog_entry_name.or v.value_option_value with
      | none => simp [selectDrop, hn]
      | some n =>
        cases idx with
        | some i =>
          cases hl : lookupA i (normalizeKey n) <;>
            simp [selectDrop, selectResolve, hn, hl]
        | none =>
          cases ho : g.options.find? (fun o => jsLower o.value == jsLower n) <;>
            simp [selectDrop, selectResolve, hn, ho]
  · induction vs with
    | nil => rfl
    | cons v vs ih =>
      rcases selectResolve_selectDrop_excl f g idx v with ⟨h1, h2⟩ | ⟨h1, h2⟩
      · obtain ⟨a, ha⟩ := Option.isSome_iff_exists.mp h1
        simp only [List.filterMap_cons, ha, h2, List.length_cons]
        omega
      · obtain ⟨a, ha⟩ := Option.isSome_iff_exists.mp h2
        simp only [List.filterMap_cons, ha, h1, List.length_cons]
        omega

/-! ## C2 — create-conflict recovery -/

/-- C2: when a create attempt fails because the external numeric id already
exists, the outcome of the engine is a failed result.  The create branch is
reached only when the reference lookup in the snapshot map found nothing
(`href`), and the conflict handler repeats exactly that lookup against the
same unchanged map, so the re-resolution necessarily finds nothing again and
the recovery branch cannot fire: the item fails with the
exists-but-not-found error, no mapping is recorded, one create call was
issued and no update call was issued.  (Even if the recovery branch could
fire, `Importer.importIncident` overwrites the `updated` status it sets with
`created` on return.)  This contradicts the claim that such an item resolves
to `updated`. -/
theorem createConflict_always_failed (inc : Incident) (ctx : MappingContext)
    (st : StateMap) (opts : ImportOpts)
    (refMap : List (String × RemoteIncident)) (rem : RemoteEnv) (n : Nat)
    (sres : MappingResult String)
    (hdry : opts.dryRun = false) (hstrict : opts.strict = false)
    (hskip : opts.skipExternalId = false)
    (hstate : lookupA st inc.id = none)
    (href : lookupA refMap inc.reference = none)
    (hext : extractNumericId inc.reference = some n)
    (hconfl : rem.externalIds.contains n = true)
    (hsev : mapSeverity inc.severity ctx.severities = .ok sres) :
    (importIncident inc ctx st opts refMap rem).1.status = .failed ∧
    (importIncident inc ctx st opts refMap rem).1.targetIncidentId = none ∧
    (importIncident inc ctx st opts refMap rem).1.error =
      some ("External ID " ++ inc.reference ++
        " exists but incident not found") ∧
    (importIncident inc ctx st opts refMap rem).2.1 = st ∧
    (importIncident inc ctx st opts refMap rem).2.2.createCalls =
      rem.createCalls + 1 ∧
    (importIncident inc ctx st opts refMap rem).2.2.updates = rem.updates := by
  have hmsg : strContains "API error (422): external ID already exists"
      "external ID already exists" = true := by decide
  simp only [importIncident, hstate, href, hsev, hstrict, hdry,
    createIncidentStep, buildCreateRequest, remoteCreate, hskip, hext, hconfl,
    hmsg, Bool.false_and, if_false, if_true, Bool.false_eq_true, ite_false,
    ite_true]
  simp [href]

/-- Witness for C2 at a concrete conflicting incident: reference INC-7,
external id 7 already present in the target, with empty dedup state and
reference map. -/
theorem createConflict_always_failed_witness :
    (lookupA ([] : StateMap) (plainIncident "i1" "INC-7").id = none) ∧
    (extractNumericId "INC-7" = some 7) ∧
    ((⟨[7], 0, 0, []⟩ : RemoteEnv).externalIds.contains 7 = true) ∧
    ((importIncident (plainIncident "i1" "INC-7") emptyCtx [] plainOpts []
        ⟨[7], 0, 0, []⟩).1.status = .failed ∧
      (importIncident (plainIncident "i1" "INC-7") emptyCtx [] plainOpts []
        ⟨[7], 0, 0, []⟩).1.targetIncidentId = none ∧
      (importIncident (plainIncident "i1" "INC-7") emptyCtx [] plainOpts []
        ⟨[7], 0, 0, []⟩).1.error =
        some ("External ID " ++ "INC-7" ++
          " exists but incident not found") ∧
      (importIncident (plainIncident "i1" "INC-7") emptyCtx [] plainOpts []
        ⟨[7], 0, 0, []⟩).2.1 = [] ∧
      (importIncident (plainIncident "i1" "INC-7") emptyCtx [] plainOpts []
        ⟨[7], 0, 0, []⟩).2.2.createCalls =
        (⟨[7], 0, 0, []⟩ : RemoteEnv).createCalls + 1 ∧
      (importIncident (plainIncident "i1" "INC-7") emptyCtx [] plainOpts []
        ⟨[7], 0, 0, []⟩).2.2.updates =
        (⟨[7], 0, 0, []⟩ : RemoteEnv).updates) :=
  ⟨rfl, by decide, by decide,
    createConflict_always_failed (plainIncident "i1" "INC-7") emptyCtx []
      plainOpts [] ⟨[7], 0, 0, []⟩ 7 ⟨none, []⟩ rfl rfl rfl rfl rfl
      (by decide) (by decide) rfl⟩

/-! ## C4 — update payload restriction and the reporter role -/

/-- The remote create call never touches the update log. -/
theorem remoteCreate_updates (rem : RemoteEnv) (req : CreateIncidentRequest) :
    (remoteCreate rem req).2.updates = rem.updates := by
  cases hext : req.external_id with
  | none => simp [remoteCreate, hext]
  | some n =>
    by_cases hc : rem.externalIds.contains n = true
    · have hcm : n ∈ rem.externalIds := by simpa using hc
      simp [remoteCreate, hext, hc, hcm]
    · simp only [Bool.not_eq_true] at hc
      have hcm : ¬ n ∈ rem.externalIds := by simpa using hc
      simp [remoteCreate, hext, hc, hcm]

/-- Under the missed reference lookup that guards every entry into the create
path, `Importer.createIncident` never records an update: the conflict-recovery
branch repeats exactly that missed lookup, so the fallback update it would
issue with an empty roles map is unreachable. -/
theorem createIncidentStep_updates (inc : Incident) (mapped : MappedFields)
    (vis : Visibility) (opts : ImportOpts)
    (refMap : List (String × RemoteIncident)) (st : StateMap) (rem : RemoteEnv)
    (href : lookupA refMap inc.reference = none) :
    (createIncidentStep inc mapped vis opts refMap st rem).2.updates =
      rem.updates := by
  have hrc := remoteCreate_updates rem (buildCreateRequest inc mapped vis opts)
  rcases h : remoteCreate rem (buildCreateRequest inc mapped vis opts)
    with ⟨cres, crem⟩
  rw [h] at hrc
  rcases cres with msg | created
  · by_cases hm : strContains msg "external ID already exists" = true
    · simp [createIncidentStep, h, hm, href]
      exact hrc
    · simp only [Bool.not_eq_true] at hm
      simp [createIncidentStep, h, hm]
      exact hrc
  · simp [createIncidentStep, h]
    exact hrc

/-- The update payload builder never sets a status, never notifies the
incident channel, and keeps no role assignment that resolves through the
supplied roles map to a reporter-typed role. -/
theorem buildUpdateRequest_restricted (inc : Incident) (mapped : MappedFields)
    (roles : List (String × IncidentRole)) :
    (buildUpdateRequest inc mapped roles).incident_status_id = none ∧
    (buildUpdateRequest inc mapped roles).notify_incident_channel = false ∧
    ∀ ras, (buildUpdateRequest inc mapped roles).incident_role_assignments =
        some ras →
      ∀ a ∈ ras, ∀ role, lookupA roles a.incident_role_id = some role →
        role.role_type ≠ RoleType.reporter := by
  refine ⟨rfl, rfl, ?_⟩
  intro ras hras a ha role hrole hrep
  simp only [buildUpdateRequest] at hras
  cases hv : optList mapped.roleResult.value with
  | none =>
    rw [hv] at hras
    simp at hras
  | some l =>
    rw [hv] at hras
    simp only [] at hras
    split at hras
    · have hras2 : l.filter (fun r =>
          match lookupA roles r.incident_role_id with
          | some role => !(role.role_type == RoleType.reporter)
          | none => true) = ras := by
        simpa using hras
      rw [← hras2] at ha
      have hpa := List.of_mem_filter ha
      rw [hrole] at hpa
      simp [hrep] at hpa
    · simp at hras

/-- One worker step records at most one update, and any update it records is
the restricted payload built against the roles map of the context. -/
theorem importIncident_updates_shape (inc : Incident) (ctx : MappingContext)
    (st : StateMap) (opts : ImportOpts)
    (refMap : List (String × RemoteIncident)) (rem : RemoteEnv)
    (u : String × UpdateIncidentRequest)
    (hu : u ∈ (importIncident inc ctx st opts refMap rem).2.2.updates) :
    u ∈ rem.updates ∨
    ∃ tid mapped, u = (tid, buildUpdateRequest inc mapped ctx.roles) := by
  rcases hsev : mapSeverity inc.severity ctx.severities with e | sres
  · left
    simpa [importIncident, hsev] using hu
  · by_cases h1 : (opts.strict && sres.value.isNone) = true
    · left
      simpa [importIncident, hsev, h1] using hu
    · simp only [Bool.not_eq_true] at h1
      by_cases h2 :
          (opts.strict && (mapStatus inc.status ctx.statuses).value.isNone)
            = true
      · left
        simpa [importIncident, hsev, h1, h2] using hu
      · simp only [Bool.not_eq_true] at h2
        by_cases hdry : opts.dryRun = true
        · left
          cases hstl : lookupA st inc.id with
          | some tid =>
            simpa [importIncident, hsev, h1, h2, hdry, hstl] using hu
          | none =>
            cases href : lookupA refMap inc.reference with
            | some byRef =>
              simpa [importIncident, hsev, h1, h2, hdry, hstl, href] using hu
            | none =>
              simpa [importIncident, hsev, h1, h2, hdry, hstl, href] using hu
        · simp only [Bool.not_eq_true] at hdry
          cases hstl : lookupA st inc.id with
          | some tid =>
            simp [importIncident, hsev, h1, h2, hdry, hstl,
              updateIncidentStep, remoteUpdate] at hu
            rcases hu with hu | hu
            · exact Or.inl hu
            · exact Or.inr ⟨tid, _, hu⟩
          | none =>
            cases href : lookupA refMap inc.reference with
            | some byRef =>
              simp [importIncident, hsev, h1, h2, hdry, hstl, href,
                updateIncidentStep, remoteUpdate] at hu
              rcases hu with hu | hu
              · exact Or.inl hu
              · exact Or.inr ⟨byRef.id, _, hu⟩
            | none =>
              left
              simp only [importIncident, hsev, h1, h2, hdry, hstl, href] at hu
              simp at hu
              split at hu
              next created s2 w rem2 heq =>
                have h5 : rem2.updates = rem.updates :=
                  (congrArg (fun p => p.2.updates) heq).symm.trans
                    (createIncidentStep_updates inc _ _ opts refMap st rem
                      href)
                simp only [h5] at hu
                simpa using hu
              next e rem2 heq =>
                have h5 : rem2.updates = rem.updates :=
                  (congrArg (fun p => p.2.updates) heq).symm.trans
                    (createIncidentStep_updates inc _ _ opts refMap st rem
                      href)
                simp only [h5] at hu
                simpa using hu

/-- C4: every update payload the engine issues over a whole run — the
create-conflict recovery path included — is restricted to the mutable fields:
the payload type has no visibility and no incident-type field at all, its
status field is never set, the incident channel is not notified, and no role
assignment whose role resolves in the target roles map to a reporter-typed
role survives into the payload.  The conflict-recovery update that would
defeat the reporter filter (the source issues it with an empty roles map) is
unreachable: the create path is entered only after the reference lookup
missed, and the recovery branch repeats exactly that lookup against the same
unchanged map, so it never records an update. -/
theorem update_payload_restricted (ctx : MappingContext) (opts : ImportOpts)
    (refMap : List (String × RemoteIncident)) (bundles : List Incident)
    (st : StateMap) (rem : RemoteEnv) (u : String × UpdateIncidentRequest)
    (hu : u ∈ (runImport ctx opts refMap bundles st rem).2.2.updates) :
    u ∈ rem.updates ∨
    (u.2.incident_status_id = none ∧
      u.2.notify_incident_channel = false ∧
      ∀ ras, u.2.incident_role_assignments = some ras →
        ∀ a ∈ ras, ∀ role,
          lookupA ctx.roles a.incident_role_id = some role →
          role.role_type ≠ RoleType.reporter) := by
  revert hu
  induction bundles generalizing st rem with
  | nil =>
    intro hu
    exact Or.inl hu
  | cons inc rest ih =>
    intro hu
    simp only [runImport] at hu
    rcases ih _ _ hu with hmem | hprop
    · rcases importIncident_updates_shape inc ctx st opts refMap rem u hmem
        with hmem2 | ⟨tid, mapped, hue⟩
      · exact Or.inl hmem2
      · right
        rw [hue]
        exact buildUpdateRequest_restricted inc mapped ctx.roles
    · exact Or.inr hprop

/-- Witness for C4 at the concrete reporter-filter scenario: a run over one
incident already in the dedup state records exactly one update, whose payload
keeps the lead-role assignment, drops the reporter-role assignment and sets
no status. -/
theorem update_payload_restricted_witness :
    (reporterDemoPayload ∈
      (runImport reporterDemoCtx plainOpts [] [reporterDemoIncident]
        [("i4", "t4")] emptyRemote).2.2.updates) ∧
    (reporterDemoPayload ∈ emptyRemote.updates ∨
      (reporterDemoPayload.2.incident_status_id = none ∧
        reporterDemoPayload.2.notify_incident_channel = false ∧
        ∀ ras, reporterDemoPayload.2.incident_role_assignments = some ras →
          ∀ a ∈ ras, ∀ role,
            lookupA reporterDemoCtx.roles a.incident_role_id = some role →
            role.role_type ≠ RoleType.reporter)) :=
  ⟨by decide,
    update_payload_restricted reporterDemoCtx plainOpts []
      [reporterDemoIncident] [("i4", "t4")] emptyRemote reporterDemoPayload
      (by decide)⟩

/-- When the reference lookup misses, `Importer.createIncident` either
creates (leaving the state unchanged and adding no warning) or fails: the
conflict-recovery branch repeats exactly that missed lookup, so it can never
succeed. -/
theorem createIncidentStep_refMiss (inc : Incident) (mapped : MappedFields)
    (vis : Visibility) (opts : ImportOpts)
    (refMap : List (String × RemoteIncident)) (st : StateMap) (rem : RemoteEnv)
    (href : lookupA refMap inc.reference = none) :
    (∃ created rem', createIncidentStep inc mapped vis opts refMap st rem =
      (.ok (created, st, []), rem')) ∨
    (∃ e rem', createIncidentStep inc mapped vis opts refMap st rem =
      (.error e, rem')) := by
  unfold createIncidentStep
  rcases hrc : remoteCreate rem (buildCreateRequest inc mapped vis opts)
    with ⟨cres, crem⟩
  rcases cres with msg | created
  · by_cases hm : strContains msg "external ID already exists" = true
    · right
      exact ⟨"External ID " ++ inc.reference ++ " exists but incident not found",
        crem, by simp [hrc, hm, href]⟩
    · right
      simp only [Bool.not_eq_true] at hm
      exact ⟨msg, crem, by simp [hrc, hm]⟩
  · left
    exact ⟨created, crem, by simp [hrc]⟩

theorem contains_cons_mono {α : Type} [BEq α] (l : List α) (m n : α)
    (h : l.contains n = true) : (m :: l).contains n = true := by
  simp only [List.contains] at h ⊢
  cases hnm : n == m with
  | true => simp [List.elem_cons, hnm]
  | false => simp [List.elem_cons, hnm, h]

theorem lookupA_append_isSome {α : Type} (L l : List (String × α)) (k : String)
    (h : (lookupA l k).isSome = true) : (lookupA (L ++ l) k).isSome = true := by
  induction L with
  | nil => exact h
  | cons p t ih =>
    by_cases hp : (p.1 == k) = true
    · simp [lookupA, List.find?, hp]
    · simp only [Bool.not_eq_true] at hp
      simp only [List.cons_append, lookupA, List.find?, hp]
      exact ih

/-- Full characterization of the create step under a missed reference lookup:
it either creates (state unchanged, no extra warning, external ids only grow,
and no conflict was pending against the incoming remote), or fails (remote
unchanged except the counted attempt, and the conflict was pending). -/
theorem createIncidentStep_char (inc : Incident) (mapped : MappedFields)
    (vis : Visibility) (opts : ImportOpts)
    (refMap : List (String × RemoteIncident)) (st : StateMap) (rem : RemoteEnv)
    (href : lookupA refMap inc.reference = none) :
    (∃ created rem', createIncidentStep inc mapped vis opts refMap st rem =
        (.ok (created, st, []), rem') ∧
      (∀ n, rem.externalIds.contains n = true →
        rem'.externalIds.contains n = true) ∧
      createConflicted opts inc rem = false) ∨
    (∃ e rem', createIncidentStep inc mapped vis opts refMap st rem =
        (.error e, rem') ∧
      (∀ n, rem.externalIds.contains n = true →
        rem'.externalIds.contains n = true) ∧
      createConflicted opts inc rem = true) := by
  by_cases hskip : opts.skipExternalId = true
  · -- no external id requested: the create always succeeds
    left
    refine ⟨⟨"tgt-" ++ toString rem.counter, "TGT-" ++ toString rem.counter⟩,
      { rem with createCalls := rem.createCalls + 1,
                 counter := rem.counter + 1 }, ?_, ?_, ?_⟩
    · simp [createIncidentStep, remoteCreate, buildCreateRequest, hskip]
    · intro n h
      exact h
    · simp [createConflicted, hskip]
  · simp only [Bool.not_eq_true] at hskip
    rcases hext : extractNumericId inc.reference with _ | n
    · left
      refine ⟨⟨"tgt-" ++ toString rem.counter, "TGT-" ++ toString rem.counter⟩,
        { rem with createCalls := rem.createCalls + 1,
                   counter := rem.counter + 1 }, ?_, ?_, ?_⟩
      · simp [createIncidentStep, remoteCreate, buildCreateRequest, hskip,
          hext]
      · intro m h
        exact h
      · simp [createConflicted, hskip, hext]
    · by_cases hc : rem.externalIds.contains n = true
      · right
        have hmsg : strContains "API error (422): external ID already exists"
            "external ID already exists" = true := by decide
        have hcm : n ∈ rem.externalIds := by
          simpa using hc
        refine ⟨"External ID " ++ inc.reference ++
            " exists but incident not found",
          { rem with createCalls := rem.createCalls + 1 }, ?_, ?_, ?_⟩
        · simp [createIncidentStep, remoteCreate, buildCreateRequest, hskip,
            hext, hc, hcm, hmsg, href]
        · intro m h
          exact h
        · simp [createConflicted, hskip, hext, hc, hcm]
      · left
        simp only [Bool.not_eq_true] at hc
        have hcm : ¬(n ∈ rem.externalIds) := by
          simpa using hc
        refine ⟨⟨"tgt-" ++ toString rem.counter, "TGT-" ++ toString rem.counter⟩,
          { rem with createCalls := rem.createCalls + 1,
                     counter := rem.counter + 1,
                     externalIds := n :: rem.externalIds }, ?_, ?_, ?_⟩
        · simp [createIncidentStep, remoteCreate, buildCreateRequest, hskip,
            hext, hc, hcm]
        · intro m h
          exact contains_cons_mono _ n m h
        · simp [createConflicted, hskip, hext, hc, hcm]

theorem createConflicted_mono (opts : ImportOpts) (inc : Incident)
    (a b : RemoteEnv)
    (hmono : ∀ n, a.externalIds.contains n = true →
      b.externalIds.contains n = true)
    (h : createConflicted opts inc a = true) :
    createConflicted opts inc b = true := by
  simp only [createConflicted, Bool.and_eq_true] at h ⊢
  refine ⟨h.1, ?_⟩
  rcases hext : extractNumericId inc.reference with _ | n
  · rw [hext] at h
    exact h.2
  · rw [hext] at h
    exact hmono n h.2

/-- Per-item characterization of one worker step (item processing followed by
the accumulator), for a non-dry run: the dedup state only grows by fresh
bindings; the remote external-id set only grows; after the step the source
id of the item is in the state unless the item was blocked before any remote call
or its create attempt conflicted; an item that starts in the dedup state, or
is blocked, or conflicts, never ends created; and an item already in the
dedup state ends updated or failed without any create call. -/
theorem importIncident_char (inc : Incident) (ctx : MappingContext)
    (st : StateMap) (opts : ImportOpts)
    (refMap : List (String × RemoteIncident)) (rem : RemoteEnv)
    (hdry : opts.dryRun = false) :
    (∃ L, accumulate (importIncident inc ctx st opts refMap rem).2.1 inc.id
        (importIncident inc ctx st opts refMap rem).1 = L ++ st) ∧
    (∀ n, rem.externalIds.contains n = true →
      (importIncident inc ctx st opts refMap rem).2.2.externalIds.contains n
        = true) ∧
    ((lookupA (accumulate (importIncident inc ctx st opts refMap rem).2.1
        inc.id (importIncident inc ctx st opts refMap rem).1) inc.id).isSome
        = true ∨
      blockedBeforeRemote inc ctx opts = true ∨
      createConflicted opts inc
        (importIncident inc ctx st opts refMap rem).2.2 = true) ∧
    (((lookupA st inc.id).isSome = true ∨
        blockedBeforeRemote inc ctx opts = true ∨
        createConflicted opts inc rem = true) →
      (importIncident inc ctx st opts refMap rem).1.status ≠ .created) ∧
    (∀ tid, lookupA st inc.id = some tid →
      ((importIncident inc ctx st opts refMap rem).1.status = .updated ∨
        (importIncident inc ctx st opts refMap rem).1.status = .failed) ∧
      (importIncident inc ctx st opts refMap rem).2.2.createCalls
        = rem.createCalls) := by
  rcases hst : lookupA st inc.id with _ | tid
  · rcases href : lookupA refMap inc.reference with _ | byRef
    · -- neither in state nor reference map
      rcases hsev : mapSeverity inc.severity ctx.severities with e | sres
      · have hbl : blockedBeforeRemote inc ctx opts = true := by
          simp [blockedBeforeRemote, hsev]
        refine ⟨⟨[], ?_⟩, ?_, Or.inr (Or.inl hbl), ?_, ?_⟩
        · simp [importIncident, hst, href, hsev, accumulate]
        · intro n h
          simpa [importIncident, hst, href, hsev] using h
        · intro _
          simp [importIncident, hst, href, hsev]
        · intro tid htid
          exact Option.noConfusion htid
      · by_cases hb1 : (opts.strict && sres.value.isNone) = true
        · have hbl : blockedBeforeRemote inc ctx opts = true := by
            simp only [Bool.and_eq_true] at hb1
            simp [blockedBeforeRemote, hsev, hb1.1, hb1.2]
          refine ⟨⟨[], ?_⟩, ?_, Or.inr (Or.inl hbl), ?_, ?_⟩
          · simp [importIncident, hst, href, hsev, hb1, accumulate]
          · intro n h
            simpa [importIncident, hst, href, hsev, hb1] using h
          · intro _
            simp [importIncident, hst, href, hsev, hb1]
          · intro tid htid
            exact Option.noConfusion htid
        · by_cases hb2 : (opts.strict &&
              (mapStatus inc.status ctx.statuses).value.isNone) = true
          · have hbl : blockedBeforeRemote inc ctx opts = true := by
              simp only [Bool.and_eq_true] at hb2
              simp [blockedBeforeRemote, hsev, hb2.1, hb2.2]
            refine ⟨⟨[], ?_⟩, ?_, Or.inr (Or.inl hbl), ?_, ?_⟩
            · simp [importIncident, hst, href, hsev, hb1, hb2, accumulate]
            · intro n h
              simpa [importIncident, hst, href, hsev, hb1, hb2] using h
            · intro _
              simp [importIncident, hst, href, hsev, hb1, hb2]
            · intro tid htid
              exact Option.noConfusion htid
          · -- resolvers fine, not strict-blocked: create branch
            simp only [Bool.not_eq_true] at hb1 hb2
            have hbl : blockedBeforeRemote inc ctx opts = false := by
              cases hstr : opts.strict with
              | false => simp [blockedBeforeRemote, hsev, hstr]
              | true =>
                rw [hstr] at hb1 hb2
                simp only [Bool.true_and] at hb1 hb2
                simp [blockedBeforeRemote, hsev, hstr, hb1, hb2]
            rcases createIncidentStep_char inc
                ⟨sres, mapStatus inc.status ctx.statuses,
                  mapIncidentType inc.incident_type ctx.types,
                  mapTimestampsWithContext inc.incident_timestamp_values []
                    ctx.timestamps,
                  mapRoleAssignments inc.incident_role_assignments []
                    ctx.roles ctx.users,
                  mapCustomFieldValues inc.custom_field_values []
                    ctx.customFields ctx.catalogEntries⟩
                (adjustVisibility inc
                  (mapIncidentType inc.incident_type ctx.types) ctx.types).1
                opts refMap st rem href with
              ⟨created, rem2, hcs, hmono, hconf⟩ | ⟨e, rem2, hcs, hmono, hconf⟩
            · refine ⟨⟨[(inc.id, created.id)], ?_⟩, ?_, Or.inl ?_, ?_, ?_⟩
              · simp [importIncident, hst, href, hsev, hb1, hb2, hdry, hcs,
                  accumulate, insertA]
              · intro n h
                simp only [importIncident, hst, href, hsev, hb1, hb2, hdry,
                  hcs]
                simp only [Bool.false_eq_true, if_false, ite_false]
                exact hmono n h
              · simp only [importIncident, hst, href, hsev, hb1, hb2, hdry,
                  hcs, accumulate]
                simp only [Bool.false_eq_true, if_false, ite_false, if_true,
                  ite_true]
                simp [lookupA_insertA_self]
              · intro hpre
                rcases hpre with hpre | hpre | hpre
                · simp at hpre
                · rw [hbl] at hpre
                  cases hpre
                · rw [hconf] at hpre
                  cases hpre
              · intro tid htid
                exact Option.noConfusion htid
            · refine ⟨⟨[], ?_⟩, ?_, Or.inr (Or.inr ?_), ?_, ?_⟩
              · simp [importIncident, hst, href, hsev, hb1, hb2, hdry, hcs,
                  accumulate]
              · intro n h
                simp only [importIncident, hst, href, hsev, hb1, hb2, hdry,
                  hcs]
                simp only [Bool.false_eq_true, if_false, ite_false]
                exact hmono n h
              · simp only [importIncident, hst, href, hsev, hb1, hb2, hdry,
                  hcs]
                simp only [Bool.false_eq_true, if_false, ite_false]
                exact createConflicted_mono opts inc rem rem2 hmono hconf
              · intro _
                simp [importIncident, hst, href, hsev, hb1, hb2, hdry, hcs]
              · intro tid htid
                exact Option.noConfusion htid
    · -- found by reference
      rcases hsev : mapSeverity inc.severity ctx.severities with e | sres
      · refine ⟨⟨[(inc.id, byRef.id)], ?_⟩, ?_, Or.inl ?_, ?_, ?_⟩
        · simp [importIncident, hst, href, hsev, accumulate, insertA]
        · intro n h
          simpa [importIncident, hst, href, hsev] using h
        · simp only [importIncident, hst, href, hsev, accumulate]
          simp [lookupA_insertA_self]
        · intro _
          simp [importIncident, hst, href, hsev]
        · intro tid htid
          exact Option.noConfusion htid
      · by_cases hb1 : (opts.strict && sres.value.isNone) = true
        · refine ⟨⟨[(inc.id, byRef.id)], ?_⟩, ?_, Or.inl ?_, ?_, ?_⟩
          · simp [importIncident, hst, href, hsev, hb1, accumulate, insertA]
          · intro n h
            simpa [importIncident, hst, href, hsev, hb1] using h
          · simp only [importIncident, hst, href, hsev, hb1, accumulate]
            simp [lookupA_insertA_self]
          · intro _
            simp [importIncident, hst, href, hsev, hb1]
          · intro tid htid
            exact Option.noConfusion htid
        · by_cases hb2 : (opts.strict &&
              (mapStatus inc.status ctx.statuses).value.isNone) = true
          · refine ⟨⟨[(inc.id, byRef.id)], ?_⟩, ?_, Or.inl ?_, ?_, ?_⟩
            · simp [importIncident, hst, href, hsev, hb1, hb2, accumulate,
                insertA]
            · intro n h
              simpa [importIncident, hst, href, hsev, hb1, hb2] using h
            · simp only [importIncident, hst, href, hsev, hb1, hb2,
                accumulate]
              simp [lookupA_insertA_self]
            · intro _
              simp [importIncident, hst, href, hsev, hb1, hb2]
            · intro tid htid
              exact Option.noConfusion htid
          · simp only [Bool.not_eq_true] at hb1 hb2
            refine ⟨⟨[(inc.id, byRef.id), (inc.id, byRef.id)], ?_⟩, ?_,
              Or.inl ?_, ?_, ?_⟩
            · simp only [importIncident, hst, href, hsev, hb1, hb2, hdry,
                accumulate, updateIncidentStep, remoteUpdate]
              simp only [Bool.false_eq_true, if_false, ite_false]
              rw [if_pos (Or.inr trivial)]
              simp [insertA]
            · intro n h
              simpa [importIncident, hst, href, hsev, hb1, hb2, hdry,
                updateIncidentStep, remoteUpdate] using h
            · simp only [importIncident, hst, href, hsev, hb1, hb2, hdry,
                accumulate, updateIncidentStep, remoteUpdate]
              simp only [Bool.false_eq_true, if_false, ite_false]
              rw [if_pos (Or.inr trivial)]
              simp [lookupA_insertA_self]
            · intro _
              simp [importIncident, hst, href, hsev, hb1, hb2, hdry,
                updateIncidentStep, remoteUpdate]
            · intro tid htid
              exact Option.noConfusion htid
  · -- already in the dedup state
    rcases hsev : mapSeverity inc.severity ctx.severities with e | sres
    · refine ⟨⟨[], ?_⟩, ?_, Or.inl ?_, ?_, ?_⟩
      · simp [importIncident, hst, hsev, accumulate]
      · intro n h
        simpa [importIncident, hst, hsev] using h
      · simp only [importIncident, hst, hsev, accumulate]
        simp [hst]
      · intro _
        simp [importIncident, hst, hsev]
      · intro tid2 htid
        refine ⟨Or.inr ?_, ?_⟩
        · simp [importIncident, hst, hsev]
        · simp [importIncident, hst, hsev]
    · by_cases hb1 : (opts.strict && sres.value.isNone) = true
      · refine ⟨⟨[], ?_⟩, ?_, Or.inl ?_, ?_, ?_⟩
        · simp [importIncident, hst, hsev, hb1, accumulate]
        · intro n h
          simpa [importIncident, hst, hsev, hb1] using h
        · simp only [importIncident, hst, hsev, hb1, accumulate]
          simp [hst]
        · intro _
          simp [importIncident, hst, hsev, hb1]
        · intro tid2 htid
          refine ⟨Or.inr ?_, ?_⟩
          · simp [importIncident, hst, hsev, hb1]
          · simp [importIncident, hst, hsev, hb1]
      · by_cases hb2 : (opts.strict &&
            (mapStatus inc.status ctx.statuses).value.isNone) = true
        · refine ⟨⟨[], ?_⟩, ?_, Or.inl ?_, ?_, ?_⟩
          · simp [importIncident, hst, hsev, hb1, hb2, accumulate]
          · intro n h
            simpa [importIncident, hst, hsev, hb1, hb2] using h
          · simp only [importIncident, hst, hsev, hb1, hb2, accumulate]
            simp [hst]
          · intro _
            simp [importIncident, hst, hsev, hb1, hb2]
          · intro tid2 htid
            refine ⟨Or.inr ?_, ?_⟩
            · simp [importIncident, hst, hsev, hb1, hb2]
            · simp [importIncident, hst, hsev, hb1, hb2]
        · simp only [Bool.not_eq_true] at hb1 hb2
          refine ⟨⟨[(inc.id, tid)], ?_⟩, ?_, Or.inl ?_, ?_, ?_⟩
          · simp only [importIncident, hst, hsev, hb1, hb2, hdry, accumulate,
              updateIncidentStep, remoteUpdate]
            simp only [Bool.false_eq_true, if_false, ite_false]
            rw [if_pos (Or.inr trivial)]
            simp [insertA]
          · intro n h
            simpa [importIncident, hst, hsev, hb1, hb2, hdry,
              updateIncidentStep, remoteUpdate] using h
          · simp only [importIncident, hst, hsev, hb1, hb2, hdry, accumulate,
              updateIncidentStep, remoteUpdate]
            simp only [Bool.false_eq_true, if_false, ite_false]
            rw [if_pos (Or.inr trivial)]
            simp [lookupA_insertA_self]
          · intro _
            simp [importIncident, hst, hsev, hb1, hb2, hdry,
              updateIncidentStep, remoteUpdate]
          · intro tid2 htid
            refine ⟨Or.inl ?_, ?_⟩
            · simp [importIncident, hst, hsev, hb1, hb2, hdry,
                updateIncidentStep, remoteUpdate]
            · simp [importIncident, hst, hsev, hb1, hb2, hdry,
                updateIncidentStep, remoteUpdate]

theorem lookupA_insertA_same {α : Type} (l : List (String × α)) (k i : String)
    (v w : α) (hk : lookupA l k = some v) (hi : lookupA l i = some w) :
    lookupA (insertA l i w) k = some v := by
  by_cases hki : k = i
  · subst hki
    rw [lookupA_insertA_self]
    rw [hk] at hi
    exact hi.symm
  · rwa [lookupA_insertA_ne _ _ _ _ hki]

theorem lookupA_insertA_absent {α : Type} (l : List (String × α))
    (k i : String) (v w : α) (hk : lookupA l k = some v)
    (hi : lookupA l i = none) : lookupA (insertA l i w) k = some v := by
  by_cases hki : k = i
  · subst hki
    rw [hk] at hi
    cases hi
  · rwa [lookupA_insertA_ne _ _ _ _ hki]

/-! ## C5 — dedup-state mutation -/

/-- C5 counterexample: in strict mode, an incident whose reference is found
in the target reference map has its dedup-state entry recorded immediately —
before the mapping step aborts the item — so the entry exists although the
result of the item is failed.  This refutes the claim that an entry is added
only after a worker reports created or updated, and never before the outcome
of the item is known. -/
theorem dedup_entry_added_for_failed_item :
    ((importIncident (plainIncident "i5" "INC-5") emptyCtx []
        ⟨false, true, false, false⟩ [("INC-5", ⟨"t5", "INC-5"⟩)]
        emptyRemote).1.status = .failed) ∧
    (lookupA
      (accumulate
        (importIncident (plainIncident "i5" "INC-5") emptyCtx []
          ⟨false, true, false, false⟩ [("INC-5", ⟨"t5", "INC-5"⟩)]
          emptyRemote).2.1
        "i5"
        (importIncident (plainIncident "i5" "INC-5") emptyCtx []
          ⟨false, true, false, false⟩ [("INC-5", ⟨"t5", "INC-5"⟩)]
          emptyRemote).1)
      "i5" = some "t5") := by
  constructor
  · decide
  · decide

/-- C5 amended: the dedup mapping never shrinks — every existing entry
survives the processing of any item unchanged — and processing an item adds
an entry for its source id only when the item ends created or updated, or
when an existing target incident was found by reference (which happens
before the outcome of the item is known and may precede a failed outcome). -/
theorem dedup_state_mutation (inc : Incident) (ctx : MappingContext)
    (st : StateMap) (opts : ImportOpts)
    (refMap : List (String × RemoteIncident)) (rem : RemoteEnv) :
    (∀ k v, lookupA st k = some v →
      lookupA
        (accumulate (importIncident inc ctx st opts refMap rem).2.1 inc.id
          (importIncident inc ctx st opts refMap rem).1) k = some v) ∧
    (lookupA st inc.id = none →
      (lookupA
        (accumulate (importIncident inc ctx st opts refMap rem).2.1 inc.id
          (importIncident inc ctx st opts refMap rem).1) inc.id).isSome
        = true →
      (importIncident inc ctx st opts refMap rem).1.status = .created ∨
      (importIncident inc ctx st opts refMap rem).1.status = .updated ∨
      (lookupA refMap inc.reference).isSome = true) := by
  rcases hst : lookupA st inc.id with _ | tid
  · rcases href : lookupA refMap inc.reference with _ | byRef
    · -- neither in the state nor in the reference map
      rcases hsev : mapSeverity inc.severity ctx.severities with e | sres
      · refine ⟨?_, ?_⟩
        · intro k v hk
          simp only [importIncident, hst, href, hsev, accumulate]
          simpa using hk
        · intro h1 h2
          simp [importIncident, hst, href, hsev, accumulate] at h2
      · by_cases hb1 : (opts.strict && sres.value.isNone) = true
        · refine ⟨?_, ?_⟩
          · intro k v hk
            simp only [importIncident, hst, href, hsev, hb1, accumulate]
            simpa using hk
          · intro h1 h2
            simp [importIncident, hst, href, hsev, hb1, accumulate] at h2
        · by_cases hb2 :
            (opts.strict && (mapStatus inc.status ctx.statuses).value.isNone)
              = true
          · refine ⟨?_, ?_⟩
            · intro k v hk
              simp only [Bool.not_eq_true] at hb1
              simp only [importIncident, hst, href, hsev, hb1, hb2,
                accumulate]
              simpa using hk
            · intro h1 h2
              simp only [Bool.not_eq_true] at hb1
              simp [importIncident, hst, href, hsev, hb1, hb2,
                accumulate] at h2
          · simp only [Bool.not_eq_true] at hb1 hb2
            by_cases hd : opts.dryRun = true
            · -- dry run, no existing incident: created with the placeholder
              refine ⟨?_, ?_⟩
              · intro k v hk
                simp only [importIncident, hst, href, hsev, hb1, hb2, hd,
                  accumulate]
                simp only [Bool.false_eq_true, if_false, if_true]
                exact lookupA_insertA_absent st k inc.id v _ hk hst
              · intro h1 h2
                left
                simp [importIncident, hst, href, hsev, hb1, hb2, hd]
            · -- real run, create branch
              simp only [Bool.not_eq_true] at hd
              rcases createIncidentStep_refMiss inc
                  ⟨sres, mapStatus inc.status ctx.statuses,
                    mapIncidentType inc.incident_type ctx.types,
                    mapTimestampsWithContext inc.incident_timestamp_values []
                      ctx.timestamps,
                    mapRoleAssignments inc.incident_role_assignments []
                      ctx.roles ctx.users,
                    mapCustomFieldValues inc.custom_field_values []
                      ctx.customFields ctx.catalogEntries⟩
                  (adjustVisibility inc
                    (mapIncidentType inc.incident_type ctx.types) ctx.types).1
                  opts refMap st rem href with
                ⟨created, rem2, hcs⟩ | ⟨e, rem2, hcs⟩
              · refine ⟨?_, ?_⟩
                · intro k v hk
                  simp only [importIncident, hst, href, hsev, hb1, hb2, hd,
                    hcs, accumulate]
                  simp only [Bool.false_eq_true, if_false, if_true]
                  exact lookupA_insertA_absent st k inc.id v _ hk hst
                · intro h1 h2
                  left
                  simp [importIncident, hst, href, hsev, hb1, hb2, hd, hcs]
              · refine ⟨?_, ?_⟩
                · intro k v hk
                  simp only [importIncident, hst, href, hsev, hb1, hb2, hd,
                    hcs, accumulate]
                  simpa using hk
                · intro h1 h2
                  simp [importIncident, hst, href, hsev, hb1, hb2, hd,
                    hcs, accumulate] at h2
    · -- found by reference: the mapping is recorded up front
      refine ⟨?_, ?_⟩
      · intro k v hk
        have hkne : k ≠ inc.id := by
          intro hkk
          rw [hkk, hst] at hk
          cases hk
        rcases hsev : mapSeverity inc.severity ctx.severities with e | sres
        · simp only [importIncident, hst, href, hsev, accumulate]
          simpa [lookupA_insertA_ne _ _ _ _ hkne] using hk
        · by_cases hb1 : (opts.strict && sres.value.isNone) = true
          · simp only [importIncident, hst, href, hsev, hb1, accumulate]
            simpa [lookupA_insertA_ne _ _ _ _ hkne] using hk
          · by_cases hb2 : (opts.strict &&
                (mapStatus inc.status ctx.statuses).value.isNone) = true
            · simp only [Bool.not_eq_true] at hb1
              simp only [importIncident, hst, href, hsev, hb1, hb2,
                accumulate]
              simpa [lookupA_insertA_ne _ _ _ _ hkne] using hk
            · simp only [Bool.not_eq_true] at hb1 hb2
              by_cases hd : opts.dryRun = true
              · simp only [importIncident, hst, href, hsev, hb1, hb2, hd,
                  accumulate]
                simp only [Bool.false_eq_true, if_false, if_true]
                rw [if_pos (Or.inr trivial),
                  lookupA_insertA_ne _ _ _ _ hkne,
                  lookupA_insertA_ne _ _ _ _ hkne]
                exact hk
              · simp only [Bool.not_eq_true] at hd
                simp only [importIncident, hst, href, hsev, hb1, hb2, hd,
                  accumulate, updateIncidentStep, remoteUpdate]
                simp only [Bool.false_eq_true, if_false, if_true]
                rw [if_pos (Or.inr trivial),
                  lookupA_insertA_ne _ _ _ _ hkne,
                  lookupA_insertA_ne _ _ _ _ hkne]
                exact hk
      · intro h1 h2
        exact Or.inr (Or.inr (by simp [href]))
  · -- already in the dedup state
    refine ⟨?_, ?_⟩
    · intro k v hk
      rcases hsev : mapSeverity inc.severity ctx.severities with e | sres
      · simp only [importIncident, hst, hsev, accumulate]
        simpa using hk
      · by_cases hb1 : (opts.strict && sres.value.isNone) = true
        · simp only [importIncident, hst, hsev, hb1, accumulate]
          simpa using hk
        · by_cases hb2 : (opts.strict &&
              (mapStatus inc.status ctx.statuses).value.isNone) = true
          · simp only [Bool.not_eq_true] at hb1
            simp only [importIncident, hst, hsev, hb1, hb2, accumulate]
            simpa using hk
          · simp only [Bool.not_eq_true] at hb1 hb2
            by_cases hd : opts.dryRun = true
            · simp only [importIncident, hst, hsev, hb1, hb2, hd, accumulate]
              simp only [Bool.false_eq_true, if_false, if_true]
              exact lookupA_insertA_same st k inc.id v tid hk hst
            · simp only [Bool.not_eq_true] at hd
              simp only [importIncident, hst, hsev, hb1, hb2, hd, accumulate,
                updateIncidentStep, remoteUpdate]
              simp only [Bool.false_eq_true, if_false, if_true]
              exact lookupA_insertA_same st k inc.id v tid hk hst
    · intro h1 h2
      exact Option.noConfusion h1

/-- Witness for the amended C5 theorem: a pre-existing dedup entry survives
the processing of an unrelated incident. -/
theorem dedup_state_mutation_witness :
    (lookupA [("a", "b")] "a" = some "b") ∧
    lookupA
      (accumulate
        (importIncident (plainIncident "i6" "INC-6") emptyCtx [("a", "b")]
          plainOpts [] emptyRemote).2.1
        (plainIncident "i6" "INC-6").id
        (importIncident (plainIncident "i6" "INC-6") emptyCtx [("a", "b")]
          plainOpts [] emptyRemote).1) "a" = some "b" :=
  ⟨by decide,
    (dedup_state_mutation (plainIncident "i6" "INC-6") emptyCtx [("a", "b")]
      plainOpts [] emptyRemote).1 "a" "b" (by decide)⟩

/-! ## C1 — idempotence of the upsert pipeline -/

theorem runImport_mono (ctx : MappingContext) (opts : ImportOpts)
    (refMap : List (String × RemoteIncident)) (bundles : List Incident) :
    ∀ st rem, opts.dryRun = false →
    (∃ L, (runImport ctx opts refMap bundles st rem).2.1 = L ++ st) ∧
    (∀ n, rem.externalIds.contains n = true →
      (runImport ctx opts refMap bundles st rem).2.2.externalIds.contains n
        = true) := by
  induction bundles with
  | nil =>
    intro st rem _
    exact ⟨⟨[], rfl⟩, fun n h => h⟩
  | cons inc rest ih =>
    intro st rem hdry
    obtain ⟨⟨L1, hL1⟩, hext1, _, _, _⟩ :=
      importIncident_char inc ctx st opts refMap rem hdry
    obtain ⟨⟨L2, hL2⟩, hext2⟩ :=
      ih (accumulate (importIncident inc ctx st opts refMap rem).2.1 inc.id
          (importIncident inc ctx st opts refMap rem).1)
        (importIncident inc ctx st opts refMap rem).2.2 hdry
    refine ⟨⟨L2 ++ L1, ?_⟩, ?_⟩
    · simp only [runImport]
      rw [hL2, hL1, List.append_assoc]
    · intro n h
      simp only [runImport]
      exact hext2 n (hext1 n h)

theorem runImport_coverage (ctx : MappingContext) (opts : ImportOpts)
    (refMap : List (String × RemoteIncident)) (bundles : List Incident) :
    ∀ st rem, opts.dryRun = false → ∀ inc ∈ bundles,
    (lookupA (runImport ctx opts refMap bundles st rem).2.1 inc.id).isSome
      = true ∨
    blockedBeforeRemote inc ctx opts = true ∨
    createConflicted opts inc
      (runImport ctx opts refMap bundles st rem).2.2 = true := by
  induction bundles with
  | nil =>
    intro st rem _ inc hmem
    cases hmem
  | cons hd rest ih =>
    intro st rem hdry inc hmem
    rcases List.mem_cons.mp hmem with hmem | hmem
    · subst hmem
      obtain ⟨_, _, hcov, _, _⟩ :=
        importIncident_char inc ctx st opts refMap rem hdry
      rcases hcov with hcov | hbl | hconf
      · left
        obtain ⟨⟨L2, hL2⟩, _⟩ :=
          runImport_mono ctx opts refMap rest
            (accumulate (importIncident inc ctx st opts refMap rem).2.1 inc.id
              (importIncident inc ctx st opts refMap rem).1)
            (importIncident inc ctx st opts refMap rem).2.2 hdry
        simp only [runImport]
        rw [hL2]
        exact lookupA_append_isSome _ _ _ hcov
      · exact Or.inr (Or.inl hbl)
      · right
        right
        obtain ⟨_, hext2⟩ :=
          runImport_mono ctx opts refMap rest
            (accumulate (importIncident inc ctx st opts refMap rem).2.1 inc.id
              (importIncident inc ctx st opts refMap rem).1)
            (importIncident inc ctx st opts refMap rem).2.2 hdry
        simp only [runImport]
        exact createConflicted_mono opts inc _ _ hext2 hconf
    · have hrest := ih
        (accumulate (importIncident hd ctx st opts refMap rem).2.1 hd.id
          (importIncident hd ctx st opts refMap rem).1)
        (importIncident hd ctx st opts refMap rem).2.2 hdry inc hmem
      simpa only [runImport] using hrest

theorem runImport_safe (ctx : MappingContext) (opts : ImportOpts)
    (refMap : List (String × RemoteIncident)) (bundles : List Incident) :
    ∀ st rem, opts.dryRun = false →
    (∀ inc ∈ bundles,
      (lookupA st inc.id).isSome = true ∨
      blockedBeforeRemote inc ctx opts = true ∨
      createConflicted opts inc rem = true) →
    ∀ r ∈ (runImport ctx opts refMap bundles st rem).1,
      r.status ≠ ImportStatus.created := by
  induction bundles with
  | nil =>
    intro st rem _ _ r hr
    simp only [runImport] at hr
    cases hr
  | cons hd rest ih =>
    intro st rem hdry hsafe r hr
    simp only [runImport] at hr
    rcases List.mem_cons.mp hr with hr | hr
    · subst hr
      obtain ⟨_, _, _, hnc, _⟩ :=
        importIncident_char hd ctx st opts refMap rem hdry
      exact hnc (hsafe hd (List.mem_cons_self hd rest))
    · refine ih
        (accumulate (importIncident hd ctx st opts refMap rem).2.1 hd.id
          (importIncident hd ctx st opts refMap rem).1)
        (importIncident hd ctx st opts refMap rem).2.2 hdry ?_ r hr
      intro inc hmem
      rcases hsafe inc (List.mem_cons_of_mem hd hmem) with hs | hb | hc
      · left
        obtain ⟨⟨L1, hL1⟩, _, _, _, _⟩ :=
          importIncident_char hd ctx st opts refMap rem hdry
        rw [hL1]
        exact lookupA_append_isSome _ _ _ hs
      · exact Or.inr (Or.inl hb)
      · right
        right
        obtain ⟨_, hext1, _, _, _⟩ :=
          importIncident_char hd ctx st opts refMap rem hdry
        exact createConflicted_mono opts inc rem _ hext1 hc

/-- C1 counterexample: in strict mode, an incident found by reference has its
dedup entry recorded and then fails its status resolution; with that state
persisted, the second run resolves the in-mapping item to failed — not to
updated or skipped as the claim states. -/
theorem secondRun_mapped_item_fails :
    ((lookupA
      (runImport emptyCtx ⟨false, true, false, false⟩
        [("INC-31", ⟨"t31", "INC-31"⟩)] [plainIncident "c1i" "INC-31"] []
        emptyRemote).2.1 "c1i").isSome = true) ∧
    (((runImport emptyCtx ⟨false, true, false, false⟩
        [("INC-31", ⟨"t31", "INC-31"⟩)] [plainIncident "c1i" "INC-31"]
        (runImport emptyCtx ⟨false, true, false, false⟩
          [("INC-31", ⟨"t31", "INC-31"⟩)] [plainIncident "c1i" "INC-31"] []
          emptyRemote).2.1
        (runImport emptyCtx ⟨false, true, false, false⟩
          [("INC-31", ⟨"t31", "INC-31"⟩)] [plainIncident "c1i" "INC-31"] []
          emptyRemote).2.2).1.headD
        ⟨"", none, .created, [], none⟩).status = ImportStatus.failed) := by
  constructor
  · decide
  · decide

/-- C1 amended: running the pipeline twice over the same bundle stream with
the dedup state and remote environment carried over produces zero results
with status created on the second run, whatever reference snapshots the two
runs use; and every incident whose source id is in the dedup mapping when it
is processed resolves to updated — or to failed when strict mode or a
severity-resolution error aborts it — and never issues a create call. -/
theorem secondRun_no_created (ctx : MappingContext) (opts : ImportOpts)
    (refMap1 refMap2 : List (String × RemoteIncident))
    (bundles : List Incident) (st0 : StateMap) (rem0 : RemoteEnv)
    (hdry : opts.dryRun = false) :
    (∀ r ∈ (runImport ctx opts refMap2 bundles
        (runImport ctx opts refMap1 bundles st0 rem0).2.1
        (runImport ctx opts refMap1 bundles st0 rem0).2.2).1,
      r.status ≠ ImportStatus.created) ∧
    (∀ inc st rem tid, lookupA st inc.id = some tid →
      ((importIncident inc ctx st opts refMap2 rem).1.status
          = ImportStatus.updated ∨
        (importIncident inc ctx st opts refMap2 rem).1.status
          = ImportStatus.failed) ∧
      (importIncident inc ctx st opts refMap2 rem).2.2.createCalls
        = rem.createCalls) := by
  constructor
  · apply runImport_safe ctx opts refMap2 bundles _ _ hdry
    intro inc hmem
    exact runImport_coverage ctx opts refMap1 bundles st0 rem0 hdry inc hmem
  · intro inc st rem tid htid
    exact (importIncident_char inc ctx st opts refMap2 rem hdry).2.2.2.2
      tid htid

/-- Witness for the amended C1 theorem: a one-incident stream created on the
first run and updated (never created) on the second. -/
theorem secondRun_no_created_witness :
    plainOpts.dryRun = false ∧
    ((runImport emptyCtx plainOpts [] [plainIncident "w1" "INC-2"]
        (runImport emptyCtx plainOpts [] [plainIncident "w1" "INC-2"] []
          emptyRemote).2.1
        (runImport emptyCtx plainOpts [] [plainIncident "w1" "INC-2"] []
          emptyRemote).2.2).1.headD
      ⟨"", none, .created, [], none⟩).status ≠ ImportStatus.created :=
  ⟨rfl,
    (secondRun_no_created emptyCtx plainOpts [] [] [plainIncident "w1" "INC-2"]
      [] emptyRemote rfl).1 _ (by decide)⟩

end IncidentMigrator
